import Mathlib

/-!
# Verification of the CliperAi clip export and reframing engine

Shallow embedding of the core of the repository:

* src/reframer.py — the face-tracking reframer (crop strategies
  keep_in_frame / centered, the per-frame reframe loop of
  FaceReframer.reframe_video, scale-factor computation);
* src/video_exporter.py — the export orchestrator
  (VideoExporter._export_single_clip and VideoExporter.export_clips),
  modelling the ffmpeg transcode invocations it issues, the produced /
  deleted files and the value returned per clip.

Python ints are modelled as ℤ.  Python floor division (//) by a
positive constant coincides with Lean's euclidean division / on ℤ, and
Python int() truncation toward zero on a float is modelled by pyInt
below.  Python floats appear in two layers: scaled_dims is the
idealised exact-rational value of the scale-factor computation, and
scaled_dims_float / reframe_video_float model the same computation
under IEEE binary64 semantics (roundDouble: round to nearest, ties to
even), where rounding can change the outcome of the defensive
resolution check.
-/

namespace Cliper

/-! ## Python numeric helpers -/

/-- Python int() applied to a float: truncation toward zero. -/
def pyInt (q : ℚ) : ℤ := if 0 ≤ q then ⌊q⌋ else ⌈q⌉

/-- Normalisation of one slice index as NumPy / Python does it:
a non-negative index is clamped above by the length, a negative index
counts from the end and is clamped below by 0. -/
def pyIdx (i total : ℤ) : ℤ := if 0 ≤ i then min i total else max (total + i) 0

/-- Length of the slice a[i:j] of a sequence of length total,
NumPy / Python slicing semantics (never raises, clamps instead). -/
def pySliceLen (i j total : ℤ) : ℤ := max 0 (pyIdx j total - pyIdx i total)

/-! ## Reframer: crop strategies (src/reframer.py)

A detected face is reduced to what the crop computation reads from it:
its center_x in the scaled frame.  FaceReframer configuration mirrors the
constructor arguments of the Python class; strategy "keep_in_frame" is
encoded as the Boolean keep_in_frame (anything else means "centered"). -/

/-- Configuration of FaceReframer (src/reframer.py, __init__). -/
structure RCfg where
  frame_sample_rate : ℕ
  keep_in_frame : Bool
  safe_zone_margin : ℚ
deriving Repr, DecidableEq

/-- FaceReframer._calculate_crop_keep_in_frame.  State is self.last_crop_x
(None on the first call).  Returns the crop x offset together with the new
value of self.last_crop_x.  frame_height / target_height are accepted but
unused, exactly as in the source. -/
def calculate_crop_keep_in_frame (safe_zone_margin : ℚ) (last_crop_x : Option ℤ)
    (center_x frame_width _frame_height target_width _target_height : ℤ) :
    ℤ × Option ℤ :=
  let safe_left : ℚ := target_width * safe_zone_margin
  let safe_right : ℚ := target_width * (1 - safe_zone_margin)
  match last_crop_x with
  | none =>
      -- first frame: center the face, clamped into the frame
      let crop_x := max 0 (min (center_x - target_width / 2) (frame_width - target_width))
      (crop_x, some crop_x)
  | some last =>
      let face_x_in_crop : ℤ := center_x - last
      if (face_x_in_crop : ℚ) < safe_left then
        let crop_x := max 0 (center_x - pyInt safe_left)
        (crop_x, some crop_x)
      else if (face_x_in_crop : ℚ) > safe_right then
        let crop_x := min (frame_width - target_width) (center_x - pyInt safe_right)
        (crop_x, some crop_x)
      else
        (last, some last)

/-- FaceReframer._calculate_crop_centered (does not touch self.last_crop_x). -/
def calculate_crop_centered (center_x frame_width target_width : ℤ) : ℤ :=
  max 0 (min (center_x - target_width / 2) (frame_width - target_width))

/-- Iteration of _calculate_crop_keep_in_frame over a list of face
positions (center_x values), threading self.last_crop_x; returns the list
of crop offsets and the final state. -/
def keep_run (safe_zone_margin : ℚ) (frame_width target_width : ℤ) :
    Option ℤ → List ℤ → List ℤ × Option ℤ
  | st, [] => ([], st)
  | st, f :: rest =>
      let r := calculate_crop_keep_in_frame safe_zone_margin st f frame_width 0 target_width 0
      let t := keep_run safe_zone_margin frame_width target_width r.2 rest
      (r.1 :: t.1, t.2)

/-! ## Reframer: the per-frame loop of FaceReframer.reframe_video -/

/-- Mutable state threaded through the frame loop of reframe_video:
frame_number, last_face (its center_x; None until a face was detected or
the no-face fallback fired), frames_without_face, and the planner state
self.last_crop_x. -/
structure RState where
  frame_number : ℕ
  last_face : Option ℤ
  frames_without_face : ℕ
  last_crop_x : Option ℤ
deriving Repr, DecidableEq

/-- One frame as written to the encoder: the committed crop offset, the
written dimensions (after the defensive resize-on-mismatch), and — as a
ghost observation — which face center the crop was computed from
(none = the static centered branch taken when no face was ever seen). -/
structure WrittenFrame where
  crop_x : ℤ
  w : ℤ
  h : ℤ
  face_used : Option ℤ
deriving Repr, DecidableEq

/-- The FRAME SAMPLING / detection part of one loop iteration: on a
sampled frame (frame_number % frame_sample_rate == 0) the detector
result det is consulted; a hit stores the face and resets the no-face
counter, a miss increments it and — when more than 10 consecutive
sampled frames went without any face ever having been seen
(last_face is None) — installs the synthetic frame-centered face.
Returns the new (last_face, frames_without_face). -/
def detect_update (cfg : RCfg) (scaled_width : ℤ) (det : Option ℤ) (s : RState) :
    Option ℤ × ℕ :=
  if s.frame_number % cfg.frame_sample_rate = 0 then
    match det with
    | some face => (some face, 0)
    | none =>
        let fwf := s.frames_without_face + 1
        if 10 < fwf ∧ s.last_face = none then
          (some (scaled_width / 2), fwf)
        else
          (s.last_face, fwf)
  else
    (s.last_face, s.frames_without_face)

/-- The crop decision of one loop iteration: static center crop when no
face was ever seen, otherwise the configured strategy.  Returns the crop
x offset, the new self.last_crop_x, and (ghost) the face center the crop
was computed from. -/
def crop_for (cfg : RCfg) (scaled_width scaled_height target_width target_height : ℤ)
    (last_face last_crop_x : Option ℤ) : ℤ × Option ℤ × Option ℤ :=
  match last_face with
  | none =>
      -- never detected a face: static center crop
      (((scaled_width - target_width) / 2), last_crop_x, none)
  | some face =>
      if cfg.keep_in_frame then
        let r := calculate_crop_keep_in_frame cfg.safe_zone_margin last_crop_x
          face scaled_width scaled_height target_width target_height
        (r.1, r.2, some face)
      else
        (calculate_crop_centered face scaled_width target_width, last_crop_x, some face)

/-- One iteration of the while-loop of reframe_video, for one decoded
frame.  det is the detector result for this frame (only consulted on
sampled frames). -/
def reframe_step (cfg : RCfg) (scaled_width scaled_height target_width target_height : ℤ)
    (det : Option ℤ) (s : RState) : RState × WrittenFrame :=
  let fd := detect_update cfg scaled_width det s
  let cr := crop_for cfg scaled_width scaled_height target_width target_height fd.1 s.last_crop_x
  let crop_x := cr.1
  let crop_y := (scaled_height - target_height) / 2
  let w0 := pySliceLen crop_x (crop_x + target_width) scaled_width
  let h0 := pySliceLen crop_y (crop_y + target_height) scaled_height
  -- defensive resize when the sliced frame does not match the target
  let wh : ℤ × ℤ :=
    if w0 ≠ target_width ∨ h0 ≠ target_height then (target_width, target_height) else (w0, h0)
  ({ frame_number := s.frame_number + 1
     last_face := fd.1
     frames_without_face := fd.2
     last_crop_x := cr.2.1 },
   { crop_x := crop_x, w := wh.1, h := wh.2, face_used := cr.2.2 })

/-- The frame loop: processes the per-frame detector outputs in order,
collecting the written frames and the final state. -/
def reframe_run (cfg : RCfg) (scaled_width scaled_height target_width target_height : ℤ) :
    RState → List (Option ℤ) → List WrittenFrame × RState
  | s, [] => ([], s)
  | s, det :: rest =>
      let p := reframe_step cfg scaled_width scaled_height target_width target_height det s
      let t := reframe_run cfg scaled_width scaled_height target_width target_height p.1 rest
      (p.2 :: t.1, t.2)

/-- Initial loop state: fresh reframer (last_crop_x = None), no face seen. -/
def initRState (start_frame : ℕ) : RState :=
  { frame_number := start_frame, last_face := none,
    frames_without_face := 0, last_crop_x := none }

/-- The intermediate scaled dimensions computed by reframe_video:
scale_factor = max(target_width/frame_width, target_height/frame_height),
scaled = int(frame * scale_factor). -/
def scaled_dims (frame_width frame_height target_width target_height : ℤ) : ℤ × ℤ :=
  let scale_factor : ℚ :=
    max ((target_width : ℚ) / (frame_width : ℚ)) ((target_height : ℚ) / (frame_height : ℚ))
  (pyInt ((frame_width : ℚ) * scale_factor), pyInt ((frame_height : ℚ) * scale_factor))

/-- FaceReframer.reframe_video, abstracted over the decoded frames: dets
lists, for each frame of the clip, what the detector would report on the
scaled frame.  Returns .error for the defensive ValueError raised when
the scaled frame cannot satisfy the target resolution; otherwise the
frames written to the encoder and the final loop state. -/
def reframe_video (cfg : RCfg) (frame_width frame_height target_width target_height : ℤ)
    (start_frame : ℕ) (dets : List (Option ℤ)) :
    Except String (List WrittenFrame × RState) :=
  let sd := scaled_dims frame_width frame_height target_width target_height
  if sd.1 < target_width ∨ sd.2 < target_height then
    .error "Video resolution too small"
  else
    .ok (reframe_run cfg sd.1 sd.2 target_width target_height (initRState start_frame) dets)

/-! ## IEEE binary64 semantics of the scale-factor computation

reframe_video computes the scale factor with Python floats.  The exact
rational model scaled_dims above is the idealised computation; the
definitions below model the float computation faithfully: every float
operation is the correctly rounded (round to nearest, ties to even)
binary64 value of the exact result.  Subnormal flushing and overflow to
infinity are not modelled; every quantity appearing in the theorems
lies far inside the normal finite range. -/

/-- Round to the nearest integer, ties to even — the IEEE default
rounding applied to a value already scaled into integer position. -/
def roundHalfEven (q : ℚ) : ℤ :=
  if q - ⌊q⌋ < 1 / 2 then ⌊q⌋
  else if 1 / 2 < q - ⌊q⌋ then ⌊q⌋ + 1
  else if ⌊q⌋ % 2 = 0 then ⌊q⌋ else ⌊q⌋ + 1

/-- IEEE binary64 rounding of an exact rational (normal range): the
value is scaled so that its significand occupies [2^52, 2^53), rounded
half-to-even, and scaled back. -/
def roundDouble (q : ℚ) : ℚ :=
  if q = 0 then 0
  else
    ((roundHalfEven (q * 2 ^ (52 - Int.log 2 |q|)) : ℤ) : ℚ)
      * 2 ^ (Int.log 2 |q| - 52)

/-- Python float (and int/int true) division: the correctly rounded
double of the exact quotient. -/
def float_div (a b : ℚ) : ℚ := roundDouble (a / b)

/-- Python float multiplication: the correctly rounded double of the
exact product (an int operand is first converted to double). -/
def float_mul (a b : ℚ) : ℚ := roundDouble (a * b)

/-- The intermediate scaled dimensions exactly as the Python program
computes them, with IEEE-double semantics:
scale_factor = max(target_width/frame_width, target_height/frame_height)
using float divisions, then int(frame * scale_factor) with the int
operand converted to double and the product rounded. -/
def scaled_dims_float (frame_width frame_height target_width target_height : ℤ) : ℤ × ℤ :=
  let scale_factor : ℚ :=
    max (float_div (target_width : ℚ) (frame_width : ℚ))
        (float_div (target_height : ℚ) (frame_height : ℚ))
  (pyInt (float_mul (roundDouble (frame_width : ℚ)) scale_factor),
   pyInt (float_mul (roundDouble (frame_height : ℚ)) scale_factor))

/-- FaceReframer.reframe_video with the scale computation under
IEEE-double semantics (the frame loop itself is integer-only). -/
def reframe_video_float (cfg : RCfg)
    (frame_width frame_height target_width target_height : ℤ)
    (start_frame : ℕ) (dets : List (Option ℤ)) :
    Except String (List WrittenFrame × RState) :=
  let sd := scaled_dims_float frame_width frame_height target_width target_height
  if sd.1 < target_width ∨ sd.2 < target_height then
    .error "Video resolution too small"
  else
    .ok (reframe_run cfg sd.1 sd.2 target_width target_height (initRState start_frame) dets)

/-- Number of sampled frames (frame_number % rate == 0) among the run of
frames numbered j, j+1, ..., j+n-1. -/
def sampled_count (rate j n : ℕ) : ℕ :=
  match n with
  | 0 => 0
  | n + 1 => (if j % rate = 0 then 1 else 0) + sampled_count rate (j + 1) n

/-- Invariant on the planner state: a remembered crop offset is a legal
crop of the scaled frame. -/
def crop_inv (scaled_width target_width : ℤ) (s : RState) : Prop :=
  ∀ l, s.last_crop_x = some l → 0 ≤ l ∧ l ≤ scaled_width - target_width

/-- The two-phase shape of the loop state during a run in which no face
is ever detected: before the fallback threshold is crossed (at most 10
consecutive sampled misses) no face and no crop memory exist; from the
11th sampled miss on, the synthetic frame-centered face is installed and
(under keep_in_frame) the crop memory sits at the static center. -/
def noface_state (cfg : RCfg) (fallback_face ctr : ℤ) (s : RState) : Prop :=
  (s.last_face = none ∧ s.last_crop_x = none ∧ s.frames_without_face ≤ 10) ∨
  (s.last_face = some fallback_face ∧ 11 ≤ s.frames_without_face ∧
    (cfg.keep_in_frame = true → s.last_crop_x = some ctr) ∧
    (cfg.keep_in_frame = false → s.last_crop_x = none))

/-! ## Exporter: data model (src/video_exporter.py) -/

/-- The files of one clip export that the orchestrator touches, by role:
the original source video, the face-tracked silent intermediate
(clip_reframed_temp.mp4), the pass-1 temporary (clip_step1_temp.mp4),
the final output (clip.mp4), the logo image and the generated SRT. -/
inductive FKind where
  | source
  | reframed
  | step1
  | final
  | logo
  | srt
deriving Repr, DecidableEq

/-- One -i input of an ffmpeg command; trimmed records whether it is
preceded by -ss start -t duration. -/
structure InSpec where
  trimmed : Bool
  file : FKind
deriving Repr, DecidableEq

/-- A video filter appearing in -vf / -filter_complex, by origin:
an aspect-ratio crop/scale filter (payload: the literal filter string
from _get_aspect_ratio_filter), the subtitle burn-in filter (payload:
the style name it was built for), or the logo overlay (payload: the
overlay position string). -/
inductive VFilter where
  | aspect (s : String)
  | subtitles (style : String)
  | overlay (pos : String)
deriving Repr, DecidableEq

/-- One ffmpeg transcode invocation issued by _export_single_clip:
its inputs in order, whether the filters go through -filter_complex,
the video filters in order, whether -sn is passed (discard subtitle
streams), the index mapped by "-map idx:a?" when audio is mapped
explicitly, whether the audio is stream-copied (-c:a copy) instead of
re-encoded, and the output file. -/
structure FfmpegCmd where
  inputs : List InSpec
  uses_filter_complex : Bool
  vfilters : List VFilter
  sn : Bool
  map_audio : Option ℕ
  audio_copy : Bool
  out : FKind
deriving Repr, DecidableEq

/-- Provenance of the bytes sitting at the final output path at the end
of one clip export: produced by the pass-1 invocation (single pass, or
pass 1 preserved by the rename fallback), or by the pass-2 invocation. -/
inductive FinalTag where
  | fromPass1
  | fromPass2
deriving Repr, DecidableEq

/-- Existence of the per-clip temporary files and content of the final
output path when the call returns.  final = none means no completed
transcode wrote the final path (a failed invocation leaves no completed
output). -/
structure FileState where
  reframed_temp : Bool
  step1_temp : Bool
  final : Option FinalTag
deriving Repr, DecidableEq

/-- What one call of _export_single_clip did: the ffmpeg transcode
invocations it issued in order, the returned value (the final output
path, or none on failure — the Python function returns Optional[Path])
and the resulting file state. -/
structure ExportOutcome where
  invocations : List FfmpegCmd
  result : Option FKind
  files : FileState
deriving Repr, DecidableEq

/-- Per-clip export configuration, as received by _export_single_clip.
has_transcript states that transcript_path is not None; has_logo_path
that logo_path is not None. -/
structure ExportCfg where
  aspect : Option String
  add_subtitles : Bool
  has_transcript : Bool
  subtitle_style : String
  enable_face_tracking : Bool
  add_logo : Bool
  has_logo_path : Bool
  logo_position : String
deriving Repr, DecidableEq

/-- Environment of one clip export: the outcomes of the external effects.
srt_exists: subtitle_file.exists() after generate_srt_for_clip (which
catches its own exceptions and may simply not produce the file);
reframe_raises: reframe_video raised; reframed_file_exists: the
temp reframed file is on disk after the face-tracking block;
pass1_exit / pass2_exit: return codes of the two subprocess.run calls
(run with check=False, so they never raise). -/
structure ClipEnv where
  srt_exists : Bool
  logo_exists : Bool
  reframe_raises : Bool
  reframed_file_exists : Bool
  pass1_exit : ℕ
  pass2_exit : ℕ
deriving Repr, DecidableEq

/-! ## Exporter: command construction and control flow -/

/-- The positions dict of the logo overlay, with its top-right default. -/
def overlay_position (p : String) : String :=
  if p = "top-right" then "W-w-20:20"
  else if p = "top-left" then "20:20"
  else if p = "bottom-right" then "W-w-20:H-h-20"
  else if p = "bottom-left" then "20:H-h-20"
  else "W-w-20:20"

/-- VideoExporter._get_aspect_ratio_filter. -/
def get_aspect_ratio_filter (a : String) : Option String :=
  if a = "9:16" then some "crop=ih*9/16:ih,scale=1080:1920"
  else if a = "1:1" then some "crop=ih:ih,scale=1080:1080"
  else if a = "16:9" then some "scale=1920:1080"
  else none

/-- subtitle_file is assigned (add_subtitles and transcript_path). -/
def subtitle_assigned (cfg : ExportCfg) : Bool :=
  cfg.add_subtitles && cfg.has_transcript

/-- add_logo and logo_path and Path(logo_path).exists(). -/
def logo_active (cfg : ExportCfg) (env : ClipEnv) : Bool :=
  cfg.add_logo && cfg.has_logo_path && env.logo_exists

/-- Face tracking is attempted (enable_face_tracking and aspect 9:16). -/
def ft_attempted (cfg : ExportCfg) : Bool :=
  cfg.enable_face_tracking && (cfg.aspect == some "9:16")

/-- The reframe call completed without raising (its exception is caught
and logged; on failure video_to_process falls back to the source). -/
def reframe_ok (cfg : ExportCfg) (env : ClipEnv) : Bool :=
  ft_attempted cfg && !env.reframe_raises

/-- The aspect_ratio variable after the face-tracking block (set to None
when reframing succeeded, since the intermediate is already 9:16). -/
def aspect_after_ft (cfg : ExportCfg) (env : ClipEnv) : Option String :=
  if reframe_ok cfg env then none else cfg.aspect

/-- using_face_tracking = (video_to_process == temp_reframed_path and
temp_reframed_path.exists()). -/
def using_face_tracking (cfg : ExportCfg) (env : ClipEnv) : Bool :=
  reframe_ok cfg env && env.reframed_file_exists

/-- needs_two_steps = add_logo and logo_path and exists and
add_subtitles and subtitle_file and subtitle_file.exists(). -/
def needs_two_steps (cfg : ExportCfg) (env : ClipEnv) : Bool :=
  logo_active cfg env && cfg.add_subtitles && subtitle_assigned cfg && env.srt_exists

/-- The aspect-ratio part of the simple filters: present when an aspect
ratio is still set, face tracking is not in use, and the ratio is
recognized. -/
def aspect_filters (cfg : ExportCfg) (env : ClipEnv) : List VFilter :=
  match aspect_after_ft cfg env with
  | some a =>
      if !using_face_tracking cfg env then
        match get_aspect_ratio_filter a with
        | some f => [VFilter.aspect f]
        | none => []
      else []
  | none => []

/-- The subtitle part of the simple filters: only in the single-pass
case, when subtitles are requested and the SRT file exists. -/
def single_pass_subtitle_filters (cfg : ExportCfg) (env : ClipEnv) : List VFilter :=
  if !needs_two_steps cfg env && cfg.add_subtitles && subtitle_assigned cfg && env.srt_exists
  then [VFilter.subtitles cfg.subtitle_style] else []

/-- The simple (chainable) video filters of pass 1: the aspect-ratio
filter when applicable, then — only in the single-pass case — the
subtitle burn filter. -/
def simple_filters (cfg : ExportCfg) (env : ClipEnv) : List VFilter :=
  aspect_filters cfg env ++ single_pass_subtitle_filters cfg env

/-- The first (and possibly only) ffmpeg invocation of
_export_single_clip: inputs, filters, -sn when two steps are needed,
audio mapped from the original source ("-map idx:a?"), H.264 + AAC
re-encode, writing to the step-1 temp or directly to the final path. -/
def pass1_cmd (cfg : ExportCfg) (env : ClipEnv) : FfmpegCmd :=
  let uft := using_face_tracking cfg env
  let audio_idx : ℕ := if uft then 1 else 0
  let base_inputs : List InSpec :=
    if uft then [⟨false, FKind.reframed⟩, ⟨true, FKind.source⟩]
    else [⟨true, FKind.source⟩]
  { inputs := base_inputs ++ (if logo_active cfg env then [⟨false, FKind.logo⟩] else [])
    uses_filter_complex := logo_active cfg env
    vfilters := simple_filters cfg env ++
      (if logo_active cfg env then [VFilter.overlay (overlay_position cfg.logo_position)] else [])
    sn := needs_two_steps cfg env
    map_audio := some audio_idx
    audio_copy := false
    out := if needs_two_steps cfg env then FKind.step1 else FKind.final }

/-- The second ffmpeg invocation (only in the two-step case): input is
pass 1's output, only the subtitle burn filter, audio stream-copied. -/
def pass2_cmd (cfg : ExportCfg) : FfmpegCmd :=
  { inputs := [⟨false, FKind.step1⟩]
    uses_filter_complex := false
    vfilters := [VFilter.subtitles cfg.subtitle_style]
    sn := false
    map_audio := none
    audio_copy := true
    out := FKind.final }

/-- The finally-block of _export_single_clip: both per-clip temporary
files are unlinked if they exist. -/
def cleanup_temps (fs : FileState) : FileState :=
  { fs with reframed_temp := false, step1_temp := false }

/-- VideoExporter._export_single_clip.  Subtitle generation never raises
(generate_srt_for_clip catches internally); the reframe call is wrapped
in try/except (falling back to the static-crop path); the two
subprocess.run transcodes are run with check=False and checked by return
code; on a pass-2 failure pass 1's output is renamed to the final path;
the finally-block removes both temporaries on every exit path. -/
def export_single_clip (cfg : ExportCfg) (env : ClipEnv) : ExportOutcome :=
  let c1 := pass1_cmd cfg env
  if env.pass1_exit ≠ 0 then
    -- Step 1 failed: log and return None
    { invocations := [c1], result := none,
      files := cleanup_temps
        { reframed_temp := env.reframed_file_exists, step1_temp := false, final := none } }
  else if needs_two_steps cfg env then
    let c2 := pass2_cmd cfg
    if env.pass2_exit ≠ 0 then
      -- Step 2 failed: first_step_output.rename(output_path), return None
      { invocations := [c1, c2], result := none,
        files := cleanup_temps
          { reframed_temp := env.reframed_file_exists, step1_temp := false,
            final := some FinalTag.fromPass1 } }
    else
      { invocations := [c1, c2], result := some FKind.final,
        files := cleanup_temps
          { reframed_temp := env.reframed_file_exists, step1_temp := true,
            final := some FinalTag.fromPass2 } }
  else
    { invocations := [c1], result := some FKind.final,
      files := cleanup_temps
        { reframed_temp := env.reframed_file_exists, step1_temp := false,
          final := some FinalTag.fromPass1 } }

/-- VideoExporter.export_clips: iterates the clips in order, appending
the clip id (standing for the returned output path, which is named by
clip id) whenever _export_single_clip returned a path.  Each job carries
the environment that clip's export encounters. -/
def export_clips (cfg : ExportCfg) (jobs : List (ℕ × ClipEnv)) : List ℕ :=
  jobs.foldl (fun acc job =>
    match (export_single_clip cfg job.2).result with
    | some _ => acc ++ [job.1]
    | none => acc) []

/-! # Helper lemmas -/

theorem pyInt_of_nonneg {q : ℚ} (h : 0 ≤ q) : pyInt q = ⌊q⌋ := if_pos h

theorem pyInt_intCast (z : ℤ) : pyInt (z : ℚ) = z := by
  unfold pyInt
  split
  · exact Int.floor_intCast z
  · exact Int.ceil_intCast z

/-- The scale factor max(tw/fw, th/fh) really does make both scaled
dimensions (after Python int truncation) reach the target. -/
theorem scaled_dims_ge (frame_width frame_height target_width target_height : ℤ)
    (h1 : 0 < frame_width) (h2 : 0 < frame_height)
    (h3 : 0 < target_width) (h4 : 0 < target_height) :
    target_width ≤ (scaled_dims frame_width frame_height target_width target_height).1 ∧
    target_height ≤ (scaled_dims frame_width frame_height target_width target_height).2 := by
  have hfw : (0 : ℚ) < (frame_width : ℚ) := by exact_mod_cast h1
  have hfh : (0 : ℚ) < (frame_height : ℚ) := by exact_mod_cast h2
  have htw : (0 : ℚ) < (target_width : ℚ) := by exact_mod_cast h3
  have hth : (0 : ℚ) < (target_height : ℚ) := by exact_mod_cast h4
  simp only [scaled_dims]
  set sf : ℚ :=
    max ((target_width : ℚ) / (frame_width : ℚ)) ((target_height : ℚ) / (frame_height : ℚ))
    with hsf
  have hw : (target_width : ℚ) ≤ (frame_width : ℚ) * sf := by
    calc (target_width : ℚ)
        = (frame_width : ℚ) * ((target_width : ℚ) / (frame_width : ℚ)) := by
          field_simp
      _ ≤ (frame_width : ℚ) * sf := by
          exact mul_le_mul_of_nonneg_left (le_max_left _ _) hfw.le
  have hh : (target_height : ℚ) ≤ (frame_height : ℚ) * sf := by
    calc (target_height : ℚ)
        = (frame_height : ℚ) * ((target_height : ℚ) / (frame_height : ℚ)) := by
          field_simp
      _ ≤ (frame_height : ℚ) * sf := by
          exact mul_le_mul_of_nonneg_left (le_max_right _ _) hfh.le
  constructor
  · rw [pyInt_of_nonneg (le_trans htw.le hw)]
    exact Int.le_floor.mpr hw
  · rw [pyInt_of_nonneg (le_trans hth.le hh)]
    exact Int.le_floor.mpr hh

/-- In the Initialized state, a face whose position relative to the crop
lies inside the safe zone leaves the crop untouched. -/
theorem keep_in_zone (m : ℚ) (safeL safeR last center_x fw fh tw th : ℤ)
    (hL : (tw : ℚ) * m = (safeL : ℚ)) (hR : (tw : ℚ) * (1 - m) = (safeR : ℚ))
    (h1 : safeL ≤ center_x - last) (h2 : center_x - last ≤ safeR) :
    calculate_crop_keep_in_frame m (some last) center_x fw fh tw th = (last, some last) := by
  have hc1 : ¬ (((center_x - last : ℤ) : ℚ) < (tw : ℚ) * m) := by
    rw [hL]; exact not_lt.mpr (by exact_mod_cast h1)
  have hc2 : ¬ (((center_x - last : ℤ) : ℚ) > (tw : ℚ) * (1 - m)) := by
    rw [hR]; exact not_lt.mpr (by exact_mod_cast h2)
  simp only [calculate_crop_keep_in_frame]
  rw [if_neg hc1, if_neg hc2]

/-- In the Initialized state, a face that exited on the left moves the
crop to max(0, center_x - safe_left). -/
theorem keep_exit_left (m : ℚ) (safeL last center_x fw fh tw th : ℤ)
    (hL : (tw : ℚ) * m = (safeL : ℚ)) (h : center_x - last < safeL) :
    calculate_crop_keep_in_frame m (some last) center_x fw fh tw th
      = (max 0 (center_x - safeL), some (max 0 (center_x - safeL))) := by
  have hc1 : ((center_x - last : ℤ) : ℚ) < (tw : ℚ) * m := by
    rw [hL]; exact_mod_cast h
  simp only [calculate_crop_keep_in_frame]
  rw [if_pos hc1, hL, pyInt_intCast]

/-- In the Initialized state, a face that exited on the right moves the
crop to min(frame_width - target_width, center_x - safe_right). -/
theorem keep_exit_right (m : ℚ) (safeL safeR last center_x fw fh tw th : ℤ)
    (hL : (tw : ℚ) * m = (safeL : ℚ)) (hR : (tw : ℚ) * (1 - m) = (safeR : ℚ))
    (hLR : safeL ≤ safeR) (h : safeR < center_x - last) :
    calculate_crop_keep_in_frame m (some last) center_x fw fh tw th
      = (min (fw - tw) (center_x - safeR), some (min (fw - tw) (center_x - safeR))) := by
  have hc2 : ((center_x - last : ℤ) : ℚ) > (tw : ℚ) * (1 - m) := by
    rw [hR]; exact_mod_cast h
  have hge : safeL ≤ center_x - last := by omega
  have hc1 : ¬ (((center_x - last : ℤ) : ℚ) < (tw : ℚ) * m) := by
    rw [hL]; exact not_lt.mpr (by exact_mod_cast hge)
  simp only [calculate_crop_keep_in_frame]
  rw [if_neg hc1, if_pos hc2, hR, pyInt_intCast]

/-! # Claims -/

/-- Characterization of the binary exponent: e is the integer with
2^e <= q < 2^(e+1). -/
theorem int_log2_eq (e : ℤ) (q : ℚ) (h0 : 0 < q)
    (h1 : (2 : ℚ) ^ e ≤ q) (h2 : q < (2 : ℚ) ^ (e + 1)) :
    Int.log 2 q = e := by
  have hc : ((2 : ℕ) : ℚ) = (2 : ℚ) := by norm_num
  have ha : e ≤ Int.log 2 q := by
    rw [← Int.zpow_le_iff_le_log (by norm_num) h0, hc]
    exact h1
  have hb : Int.log 2 q < e + 1 := by
    rw [← Int.lt_zpow_iff_log_lt (by norm_num) h0, hc]
    exact h2
  omega

/-- A value already integral rounds to itself. -/
theorem roundHalfEven_intCast (z : ℤ) : roundHalfEven (z : ℚ) = z := by
  unfold roundHalfEven
  rw [Int.floor_intCast]
  rw [if_pos (by norm_num)]

/-- A tie at an even integer rounds down to it. -/
theorem roundHalfEven_tie_even (z : ℤ) (he : z % 2 = 0) :
    roundHalfEven ((z : ℚ) + 1 / 2) = z := by
  have hf : ⌊(z : ℚ) + 1 / 2⌋ = z := by
    rw [Int.floor_eq_iff]
    constructor
    · norm_num
    · norm_num
  unfold roundHalfEven
  rw [hf]
  have hsub : (z : ℚ) + 1 / 2 - (z : ℚ) = 1 / 2 := by ring
  rw [hsub]
  rw [if_neg (by norm_num), if_neg (by norm_num), if_pos he]

/-- Evaluation scheme for roundDouble at a nonzero value with known
exponent and known rounded significand. -/
theorem roundDouble_eq (q : ℚ) (e s : ℤ) (hq : q ≠ 0)
    (hlog : Int.log 2 |q| = e) (hr : roundHalfEven (q * 2 ^ (52 - e)) = s) :
    roundDouble q = (s : ℚ) * 2 ^ (e - 52) := by
  unfold roundDouble
  rw [if_neg hq, hlog, hr]

/-- 2^52 scaled back by 2^(0-52) is 1. -/
theorem sig_unscale_zero : ((2 ^ 52 : ℤ) : ℚ) * 2 ^ ((0 : ℤ) - 52) = 1 := by
  have h1 : ((2 ^ 52 : ℤ) : ℚ) = (2 : ℚ) ^ (52 : ℕ) := by
    push_cast
    ring
  have h2 : ((0 : ℤ) - 52) = -((52 : ℕ) : ℤ) := by norm_num
  rw [h1, h2, zpow_neg, zpow_natCast]
  exact mul_inv_cancel₀ (pow_ne_zero 52 two_ne_zero)

/-- 2^52 scaled back by 2^(53-52) is 2^53. -/
theorem sig_unscale_53 : ((2 ^ 52 : ℤ) : ℚ) * 2 ^ ((53 : ℤ) - 52) = 2 ^ 53 := by
  have h2 : ((53 : ℤ) - 52) = (1 : ℤ) := by norm_num
  rw [h2, zpow_one]
  push_cast
  ring

/-- 1.0 is exactly representable. -/
theorem roundDouble_one : roundDouble (1 : ℚ) = 1 := by
  have hlog : Int.log 2 |(1 : ℚ)| = 0 := by
    rw [abs_one]
    exact Int.log_one_right 2
  have harg : (1 : ℚ) * 2 ^ ((52 : ℤ) - 0) = ((2 ^ 52 : ℤ) : ℚ) := by
    rw [one_mul, sub_zero, show ((52 : ℤ)) = ((52 : ℕ) : ℤ) from rfl, zpow_natCast]
    push_cast
    ring
  have hr : roundHalfEven ((1 : ℚ) * 2 ^ ((52 : ℤ) - 0)) = 2 ^ 52 := by
    rw [harg]
    exact roundHalfEven_intCast (2 ^ 52)
  rw [roundDouble_eq 1 0 (2 ^ 52) one_ne_zero hlog hr]
  exact sig_unscale_zero

/-- 2^53 is exactly representable. -/
theorem roundDouble_pow53 : roundDouble ((2 : ℚ) ^ 53) = (2 : ℚ) ^ 53 := by
  have hpos : (0 : ℚ) < (2 : ℚ) ^ 53 := by positivity
  have hlog : Int.log 2 |(2 : ℚ) ^ 53| = 53 := by
    rw [abs_of_pos hpos]
    refine int_log2_eq 53 _ hpos ?_ ?_
    · rw [show ((53 : ℤ)) = ((53 : ℕ) : ℤ) from rfl, zpow_natCast]
    · rw [show ((53 : ℤ) + 1) = ((54 : ℕ) : ℤ) from by norm_num, zpow_natCast]
      norm_num
  have harg : (2 : ℚ) ^ 53 * 2 ^ ((52 : ℤ) - 53) = ((2 ^ 52 : ℤ) : ℚ) := by
    rw [show ((52 : ℤ) - 53) = (-1 : ℤ) from by norm_num, zpow_neg_one]
    push_cast
    field_simp
    ring
  have hr : roundHalfEven ((2 : ℚ) ^ 53 * 2 ^ ((52 : ℤ) - 53)) = 2 ^ 52 := by
    rw [harg]
    exact roundHalfEven_intCast (2 ^ 52)
  rw [roundDouble_eq ((2 : ℚ) ^ 53) 53 (2 ^ 52) (ne_of_gt hpos) hlog hr]
  exact sig_unscale_53

/-- 2^53 + 1 needs 54 significant bits: it falls exactly halfway between
the representable 2^53 and 2^53 + 2 and rounds to even, i.e. DOWN to
2^53. -/
theorem roundDouble_pow53_succ : roundDouble ((2 : ℚ) ^ 53 + 1) = (2 : ℚ) ^ 53 := by
  have hpos : (0 : ℚ) < (2 : ℚ) ^ 53 + 1 := by positivity
  have hlog : Int.log 2 |(2 : ℚ) ^ 53 + 1| = 53 := by
    rw [abs_of_pos hpos]
    refine int_log2_eq 53 _ hpos ?_ ?_
    · rw [show ((53 : ℤ)) = ((53 : ℕ) : ℤ) from rfl, zpow_natCast]
      linarith
    · rw [show ((53 : ℤ) + 1) = ((54 : ℕ) : ℤ) from by norm_num, zpow_natCast]
      norm_num
  have harg : ((2 : ℚ) ^ 53 + 1) * 2 ^ ((52 : ℤ) - 53) = ((2 ^ 52 : ℤ) : ℚ) + 1 / 2 := by
    rw [show ((52 : ℤ) - 53) = (-1 : ℤ) from by norm_num, zpow_neg_one]
    push_cast
    field_simp
    ring
  have hr : roundHalfEven (((2 : ℚ) ^ 53 + 1) * 2 ^ ((52 : ℤ) - 53)) = 2 ^ 52 := by
    rw [harg]
    exact roundHalfEven_tie_even (2 ^ 52) (by norm_num)
  rw [roundDouble_eq ((2 : ℚ) ^ 53 + 1) 53 (2 ^ 52) (ne_of_gt hpos) hlog hr]
  exact sig_unscale_53

/-- Counterexample to C9 as stated: at the positive dimensions
frame 1x1, target (2^53+1)x1, the program's IEEE-double computation
(scaled_dims_float) gives scale_factor = fl((2^53+1)/1) = 2^53
(round-half-even) and int(1 * 2^53) = 2^53 < 2^53 + 1, so the defensive
resolution error fires: reframe_video under float semantics returns the
error for every configuration and input. -/
theorem claim_c9_float_rounding_counterexample :
    (0 : ℤ) < 1 ∧ (0 : ℤ) < 2 ^ 53 + 1 ∧
    (scaled_dims_float 1 1 (2 ^ 53 + 1) 1).1 < 2 ^ 53 + 1 ∧
    ∀ (cfg : RCfg) (start_frame : ℕ) (dets : List (Option ℤ)),
      reframe_video_float cfg 1 1 (2 ^ 53 + 1) 1 start_frame dets
        = Except.error "Video resolution too small" := by
  have hc1 : (((1 : ℤ)) : ℚ) = 1 := by norm_num
  have hcT : (((2 ^ 53 + 1 : ℤ)) : ℚ) = (2 : ℚ) ^ 53 + 1 := by
    push_cast
    ring
  have hdivT : float_div (((2 ^ 53 + 1 : ℤ)) : ℚ) (((1 : ℤ)) : ℚ) = (2 : ℚ) ^ 53 := by
    unfold float_div
    rw [hc1, hcT, div_one]
    exact roundDouble_pow53_succ
  have hdiv1 : float_div (((1 : ℤ)) : ℚ) (((1 : ℤ)) : ℚ) = 1 := by
    unfold float_div
    rw [hc1, div_one]
    exact roundDouble_one
  have hmax : max ((2 : ℚ) ^ 53) 1 = (2 : ℚ) ^ 53 := max_eq_left (by norm_num)
  have hmul : float_mul (roundDouble (((1 : ℤ)) : ℚ)) ((2 : ℚ) ^ 53) = (2 : ℚ) ^ 53 := by
    unfold float_mul
    rw [hc1, roundDouble_one, one_mul]
    exact roundDouble_pow53
  have hpy : pyInt ((2 : ℚ) ^ 53) = 2 ^ 53 := by
    rw [show ((2 : ℚ) ^ 53) = (((2 ^ 53 : ℤ)) : ℚ) from by push_cast; ring]
    exact pyInt_intCast (2 ^ 53)
  have hsd : (scaled_dims_float 1 1 (2 ^ 53 + 1) 1).1 = 2 ^ 53 := by
    simp only [scaled_dims_float]
    rw [hdivT, hdiv1, hmax, hmul, hpy]
  refine ⟨by norm_num, by norm_num, by rw [hsd]; norm_num, ?_⟩
  intro cfg start_frame dets
  simp only [reframe_video_float]
  rw [if_pos (Or.inl (by rw [hsd]; norm_num))]

/-- C9 (amended): the scale-factor formula itself is sound — for every
positive source and target dimensions, the EXACT rational values of
frame * scale_factor reach the target in both axes, so in the
exact-arithmetic model reframe_video always takes the .ok branch.  The
defensive resolution error can therefore only ever be reached through
IEEE-double rounding of the float computation (the counterexample above
reaches it at a concrete positive input), never through a flaw in the
scale-factor formula. -/
theorem claim_c9_exact_scale_factor_guard
    (frame_width frame_height target_width target_height : ℤ)
    (h1 : 0 < frame_width) (h2 : 0 < frame_height)
    (h3 : 0 < target_width) (h4 : 0 < target_height) :
    target_width ≤ (scaled_dims frame_width frame_height target_width target_height).1 ∧
    target_height ≤ (scaled_dims frame_width frame_height target_width target_height).2 ∧
    ∀ (cfg : RCfg) (start_frame : ℕ) (dets : List (Option ℤ)),
      ∃ out, reframe_video cfg frame_width frame_height target_width target_height
        start_frame dets = Except.ok out := by
  obtain ⟨hw, hh⟩ := scaled_dims_ge frame_width frame_height target_width target_height h1 h2 h3 h4
  refine ⟨hw, hh, fun cfg s dets => ?_⟩
  unfold reframe_video
  rw [if_neg]
  · exact ⟨_, rfl⟩
  · push_neg
    exact ⟨hw, hh⟩

/-- Witness for the amended C9 at the canonical 1920x1080 source and
1080x1920 target. -/
theorem claim_c9_exact_scale_factor_guard_witness :
    ((0 : ℤ) < 1920 ∧ (0 : ℤ) < 1080) ∧
    (1080 ≤ (scaled_dims 1920 1080 1080 1920).1 ∧
     1920 ≤ (scaled_dims 1920 1080 1080 1920).2 ∧
     ∀ (cfg : RCfg) (start_frame : ℕ) (dets : List (Option ℤ)),
       ∃ out, reframe_video cfg 1920 1080 1080 1920 start_frame dets = Except.ok out) :=
  ⟨⟨by decide, by decide⟩,
   claim_c9_exact_scale_factor_guard 1920 1080 1080 1920
     (by decide) (by decide) (by decide) (by decide)⟩

/-- C2: keep_in_frame strategy in the Initialized state
(last_crop_x = some last), with safe_left = target_width * margin and
safe_right = target_width * (1 - margin) (stated for the case where both
are whole numbers, as at the default margin 0.15 with target width 1080):
a face inside the safe zone returns last (zero movement, and a whole
sequence of in-zone face positions keeps last_crop_x constant); a face
left of the safe zone returns max(0, center_x - safe_left); a face right
of it returns min(frame_width - target_width, center_x - safe_right). -/
theorem claim_c2_keep_in_frame_initialized_cases
    (m : ℚ) (safeL safeR last center_x frame_width frame_height target_width target_height : ℤ)
    (hL : (target_width : ℚ) * m = (safeL : ℚ))
    (hR : (target_width : ℚ) * (1 - m) = (safeR : ℚ))
    (hLR : safeL ≤ safeR) :
    (safeL ≤ center_x - last ∧ center_x - last ≤ safeR →
      calculate_crop_keep_in_frame m (some last) center_x frame_width frame_height
        target_width target_height = (last, some last)) ∧
    (center_x - last < safeL →
      calculate_crop_keep_in_frame m (some last) center_x frame_width frame_height
        target_width target_height
        = (max 0 (center_x - safeL), some (max 0 (center_x - safeL)))) ∧
    (safeR < center_x - last →
      calculate_crop_keep_in_frame m (some last) center_x frame_width frame_height
        target_width target_height
        = (min (frame_width - target_width) (center_x - safeR),
           some (min (frame_width - target_width) (center_x - safeR)))) ∧
    (∀ faces : List ℤ, (∀ g ∈ faces, safeL ≤ g - last ∧ g - last ≤ safeR) →
      keep_run m frame_width target_width (some last) faces
        = (faces.map fun _ => last, some last)) := by
  refine ⟨fun h => keep_in_zone m safeL safeR last center_x frame_width frame_height
      target_width target_height hL hR h.1 h.2,
    fun h => keep_exit_left m safeL last center_x frame_width frame_height
      target_width target_height hL h,
    fun h => keep_exit_right m safeL safeR last center_x frame_width frame_height
      target_width target_height hL hR hLR h,
    fun faces => ?_⟩
  induction faces with
  | nil => intro _; rfl
  | cons g rest ih =>
      intro hall
      have hg := hall g (List.mem_cons_self g rest)
      have hz := keep_in_zone m safeL safeR last g frame_width 0 target_width 0 hL hR hg.1 hg.2
      simp only [keep_run, hz, List.map_cons]
      rw [ih (fun x hx => hall x (List.mem_cons_of_mem g hx))]

/-- Witness for C2 at the default configuration margin = 0.15,
target_width = 1080 (safe zone [162, 918]), exercising the in-zone case. -/
theorem claim_c2_keep_in_frame_initialized_cases_witness :
    ((1080 : ℚ) * (3 / 20) = ((162 : ℤ) : ℚ) ∧
     (1080 : ℚ) * (1 - 3 / 20) = ((918 : ℤ) : ℚ) ∧
     (162 : ℤ) ≤ 918 ∧
     (162 : ℤ) ≤ 1400 - 1166 ∧ (1400 : ℤ) - 1166 ≤ 918) ∧
    calculate_crop_keep_in_frame (3 / 20) (some 1166) 1400 3413 1920 1080 1920
      = (1166, some 1166) :=
  ⟨⟨by norm_num, by norm_num, by decide, by decide, by decide⟩,
   (claim_c2_keep_in_frame_initialized_cases (3 / 20) 162 918 1166 1400 3413 1920 1080 1920
     (by norm_num) (by norm_num) (by decide)).1 ⟨by decide, by decide⟩⟩

/-- Bounds of the keep_in_frame crop computation: starting from a legal
(or absent) remembered crop, the returned crop offset is a legal crop of
the scaled frame, and the new state remembers exactly that offset. -/
theorem keep_crop_bounds (m : ℚ) (hm0 : 0 ≤ m) (hm1 : m ≤ 1)
    (last : Option ℤ) (f sw sh tw th : ℤ) (htw : 0 ≤ tw) (hsw : tw ≤ sw)
    (hlast : ∀ l, last = some l → 0 ≤ l ∧ l ≤ sw - tw) :
    0 ≤ (calculate_crop_keep_in_frame m last f sw sh tw th).1 ∧
    (calculate_crop_keep_in_frame m last f sw sh tw th).1 ≤ sw - tw ∧
    (calculate_crop_keep_in_frame m last f sw sh tw th).2
      = some (calculate_crop_keep_in_frame m last f sw sh tw th).1 := by
  cases last with
  | none =>
      simp only [calculate_crop_keep_in_frame]
      refine ⟨le_max_left _ _, ?_, trivial⟩
      have h2 : min (f - tw / 2) (sw - tw) ≤ sw - tw := min_le_right _ _
      omega
  | some l =>
      have hq : (0 : ℚ) ≤ (tw : ℚ) * m := mul_nonneg (by exact_mod_cast htw) hm0
      have hq' : (0 : ℚ) ≤ (tw : ℚ) * (1 - m) :=
        mul_nonneg (by exact_mod_cast htw) (by linarith)
      obtain ⟨hl0, hl1⟩ := hlast l rfl
      simp only [calculate_crop_keep_in_frame]
      split_ifs with h1 h2
      · rw [pyInt_of_nonneg hq]
        have hfl : f - l ≤ ⌊(tw : ℚ) * m⌋ := Int.le_floor.mpr h1.le
        refine ⟨le_max_left _ _, ?_, rfl⟩
        omega
      · rw [pyInt_of_nonneg hq']
        have hfl : ⌊(tw : ℚ) * (1 - m)⌋ < f - l := Int.floor_lt.mpr h2
        have hfl0 : (0 : ℤ) ≤ ⌊(tw : ℚ) * (1 - m)⌋ := Int.le_floor.mpr (by exact_mod_cast hq')
        constructor
        · omega
        · exact ⟨min_le_left _ _, rfl⟩
      · exact ⟨hl0, hl1, rfl⟩

/-- Bounds of the centered strategy: the clamped crop is always legal. -/
theorem centered_crop_bounds (f sw tw : ℤ) (htw : 0 ≤ tw) (hsw : tw ≤ sw) :
    0 ≤ calculate_crop_centered f sw tw ∧ calculate_crop_centered f sw tw ≤ sw - tw := by
  unfold calculate_crop_centered
  have h2 : min (f - tw / 2) (sw - tw) ≤ sw - tw := min_le_right _ _
  refine ⟨le_max_left _ _, ?_⟩
  omega

/-- Bounds of the per-frame crop decision, for any strategy and with or
without a face. -/
theorem crop_for_bounds (cfg : RCfg) (sw sh tw th : ℤ) (lf lcx : Option ℤ)
    (hm0 : 0 ≤ cfg.safe_zone_margin) (hm1 : cfg.safe_zone_margin ≤ 1)
    (htw : 0 ≤ tw) (hsw : tw ≤ sw)
    (hlcx : ∀ l, lcx = some l → 0 ≤ l ∧ l ≤ sw - tw) :
    0 ≤ (crop_for cfg sw sh tw th lf lcx).1 ∧
    (crop_for cfg sw sh tw th lf lcx).1 ≤ sw - tw ∧
    (∀ l, (crop_for cfg sw sh tw th lf lcx).2.1 = some l → 0 ≤ l ∧ l ≤ sw - tw) := by
  cases lf with
  | none =>
      simp only [crop_for]
      refine ⟨by omega, by omega, hlcx⟩
  | some face =>
      simp only [crop_for]
      by_cases hk : cfg.keep_in_frame
      · rw [if_pos hk]
        obtain ⟨hb0, hb1, hst⟩ := keep_crop_bounds cfg.safe_zone_margin hm0 hm1 lcx
          face sw sh tw th htw hsw hlcx
        refine ⟨hb0, hb1, fun l hl => ?_⟩
        simp only [hst] at hl
        obtain rfl : (calculate_crop_keep_in_frame cfg.safe_zone_margin lcx
            face sw sh tw th).1 = l := by
          exact Option.some.inj hl
        exact ⟨hb0, hb1⟩
      · rw [if_neg hk]
        obtain ⟨hb0, hb1⟩ := centered_crop_bounds face sw tw htw hsw
        exact ⟨hb0, hb1, hlcx⟩

/-- The defensive resize guarantees the written dimensions. -/
theorem written_dims (a b tw th : ℤ) :
    (if a ≠ tw ∨ b ≠ th then ((tw, th) : ℤ × ℤ) else (a, b)).1 = tw ∧
    (if a ≠ tw ∨ b ≠ th then ((tw, th) : ℤ × ℤ) else (a, b)).2 = th := by
  split_ifs with h
  · exact ⟨rfl, rfl⟩
  · push_neg at h
    exact ⟨h.1, h.2⟩

/-- One loop iteration writes a legally cropped frame of exactly the
target dimensions and preserves the crop invariant. -/
theorem reframe_step_bounds (cfg : RCfg) (sw sh tw th : ℤ) (det : Option ℤ) (s : RState)
    (hm0 : 0 ≤ cfg.safe_zone_margin) (hm1 : cfg.safe_zone_margin ≤ 1)
    (htw : 0 ≤ tw) (hsw : tw ≤ sw) (hs : crop_inv sw tw s) :
    (0 ≤ (reframe_step cfg sw sh tw th det s).2.crop_x ∧
     (reframe_step cfg sw sh tw th det s).2.crop_x ≤ sw - tw ∧
     (reframe_step cfg sw sh tw th det s).2.w = tw ∧
     (reframe_step cfg sw sh tw th det s).2.h = th) ∧
    crop_inv sw tw (reframe_step cfg sw sh tw th det s).1 := by
  obtain ⟨hb0, hb1, hinv⟩ := crop_for_bounds cfg sw sh tw th
    (detect_update cfg sw det s).1 s.last_crop_x hm0 hm1 htw hsw hs
  obtain ⟨hw, hh⟩ := written_dims
    (pySliceLen (crop_for cfg sw sh tw th (detect_update cfg sw det s).1 s.last_crop_x).1
      ((crop_for cfg sw sh tw th (detect_update cfg sw det s).1 s.last_crop_x).1 + tw) sw)
    (pySliceLen ((sh - th) / 2) ((sh - th) / 2 + th) sh) tw th
  exact ⟨⟨hb0, hb1, hw, hh⟩, hinv⟩

/-- All frames of a run are legally cropped frames of exactly the target
dimensions. -/
theorem reframe_run_bounds (cfg : RCfg) (sw sh tw th : ℤ)
    (hm0 : 0 ≤ cfg.safe_zone_margin) (hm1 : cfg.safe_zone_margin ≤ 1)
    (htw : 0 ≤ tw) (hsw : tw ≤ sw) :
    ∀ (dets : List (Option ℤ)) (s : RState), crop_inv sw tw s →
    ∀ fr ∈ (reframe_run cfg sw sh tw th s dets).1,
      0 ≤ fr.crop_x ∧ fr.crop_x ≤ sw - tw ∧ fr.w = tw ∧ fr.h = th := by
  intro dets
  induction dets with
  | nil =>
      intro s _ fr hfr
      simp only [reframe_run, List.not_mem_nil] at hfr
  | cons d rest ih =>
      intro s hs fr hfr
      obtain ⟨hb, hinv⟩ := reframe_step_bounds cfg sw sh tw th d s hm0 hm1 htw hsw hs
      simp only [reframe_run, List.mem_cons] at hfr
      rcases hfr with rfl | hfr
      · exact hb
      · exact ih (reframe_step cfg sw sh tw th d s).1 hinv fr hfr

/-- C4: in every reframe pass (any strategy, any detector behavior), each
frame written to the encoder carries a committed crop offset with
0 <= crop_x <= scaled_width - target_width and has dimensions exactly
(target_width, target_height).  The safe-zone margin is a fraction
(0 <= margin <= 1, default 0.15). -/
theorem claim_c4_crop_bounds_and_frame_dims
    (cfg : RCfg) (frame_width frame_height target_width target_height : ℤ)
    (start_frame : ℕ) (dets : List (Option ℤ)) (frames : List WrittenFrame) (fin : RState)
    (h3 : 0 < target_width)
    (hm0 : 0 ≤ cfg.safe_zone_margin) (hm1 : cfg.safe_zone_margin ≤ 1)
    (hok : reframe_video cfg frame_width frame_height target_width target_height
      start_frame dets = Except.ok (frames, fin)) :
    ∀ fr ∈ frames, 0 ≤ fr.crop_x ∧
      fr.crop_x ≤
        (scaled_dims frame_width frame_height target_width target_height).1 - target_width ∧
      fr.w = target_width ∧ fr.h = target_height := by
  unfold reframe_video at hok
  by_cases hcond :
      (scaled_dims frame_width frame_height target_width target_height).1 < target_width ∨
      (scaled_dims frame_width frame_height target_width target_height).2 < target_height
  · rw [if_pos hcond] at hok
    exact absurd hok (by simp)
  · rw [if_neg hcond] at hok
    push_neg at hcond
    have hok2 := Except.ok.inj hok
    intro fr hfr
    refine reframe_run_bounds cfg
      (scaled_dims frame_width frame_height target_width target_height).1
      (scaled_dims frame_width frame_height target_width target_height).2
      target_width target_height hm0 hm1 (le_of_lt h3) hcond.1 dets
      (initRState start_frame)
      (fun l hl => by simp [initRState] at hl) fr ?_
    rw [hok2]
    exact hfr

/-- Witness for C4: a one-frame run at the canonical resolutions with a
detected face at x = 1700, keep_in_frame strategy, default margin. -/
theorem claim_c4_crop_bounds_and_frame_dims_witness :
    ((0 : ℤ) < 1080 ∧ (0 : ℚ) ≤ 3 / 20 ∧ (3 / 20 : ℚ) ≤ 1 ∧
     reframe_video ⟨3, true, 3 / 20⟩ 1920 1080 1080 1920 0 [some 1700]
       = Except.ok ([⟨1160, 1080, 1920, some 1700⟩],
           ⟨1, some 1700, 0, some 1160⟩)) ∧
    ∀ fr ∈ [(⟨1160, 1080, 1920, some 1700⟩ : WrittenFrame)], 0 ≤ fr.crop_x ∧
      fr.crop_x ≤ (scaled_dims 1920 1080 1080 1920).1 - 1080 ∧
      fr.w = 1080 ∧ fr.h = 1920 := by
  have hsd : scaled_dims 1920 1080 1080 1920 = (3413, 1920) := by
    have hc1 : ((1920 : ℤ) : ℚ) = 1920 := by norm_num
    have hc2 : ((1080 : ℤ) : ℚ) = 1080 := by norm_num
    have hmax : max ((1080 : ℚ) / 1920) ((1920 : ℚ) / 1080) = 16 / 9 := by
      rw [max_eq_right (by norm_num)]
      norm_num
    simp only [scaled_dims, hc1, hc2, hmax]
    rw [pyInt_of_nonneg (by norm_num), pyInt_of_nonneg (by norm_num)]
    have hf1 : ⌊(1920 : ℚ) * (16 / 9)⌋ = 3413 := by
      rw [show (1920 : ℚ) * (16 / 9) = 10240 / 3 by norm_num]
      rw [show ((10240 : ℚ) / 3) = ((10240 : ℤ) : ℚ) / ((3 : ℕ) : ℚ) by norm_num]
      rw [Rat.floor_intCast_div_natCast]
      decide
    have hf2 : ⌊(1080 : ℚ) * (16 / 9)⌋ = 1920 := by
      rw [show (1080 : ℚ) * (16 / 9) = ((1920 : ℤ) : ℚ) by norm_num]
      exact Int.floor_intCast 1920
    rw [hf1, hf2]
  have hok : reframe_video ⟨3, true, 3 / 20⟩ 1920 1080 1080 1920 0 [some 1700]
      = Except.ok ([⟨1160, 1080, 1920, some 1700⟩], ⟨1, some 1700, 0, some 1160⟩) := by
    unfold reframe_video
    rw [hsd]
    rw [if_neg (by decide)]
    exact congrArg Except.ok (by decide)
  exact ⟨⟨by decide, by norm_num, by norm_num, hok⟩,
    claim_c4_crop_bounds_and_frame_dims ⟨3, true, 3 / 20⟩ 1920 1080 1080 1920 0
      [some 1700] [⟨1160, 1080, 1920, some 1700⟩] ⟨1, some 1700, 0, some 1160⟩
      (by decide) (by norm_num) (by norm_num) hok⟩

/-- The written dimensions of every frame equal the target (the
defensive resize guarantees it even on a slice mismatch). -/
theorem reframe_step_dims (cfg : RCfg) (sw sh tw th : ℤ) (det : Option ℤ) (s : RState) :
    (reframe_step cfg sw sh tw th det s).2.w = tw ∧
    (reframe_step cfg sw sh tw th det s).2.h = th := by
  simp only [reframe_step]
  exact written_dims _ _ tw th

/-- Projections of one loop iteration in terms of its two phases. -/
theorem reframe_step_proj (cfg : RCfg) (sw sh tw th : ℤ) (det : Option ℤ) (s : RState) :
    (reframe_step cfg sw sh tw th det s).1.last_face = (detect_update cfg sw det s).1 ∧
    (reframe_step cfg sw sh tw th det s).1.frames_without_face = (detect_update cfg sw det s).2 ∧
    (reframe_step cfg sw sh tw th det s).1.frame_number = s.frame_number + 1 ∧
    (reframe_step cfg sw sh tw th det s).1.last_crop_x
      = (crop_for cfg sw sh tw th (detect_update cfg sw det s).1 s.last_crop_x).2.1 ∧
    (reframe_step cfg sw sh tw th det s).2.crop_x
      = (crop_for cfg sw sh tw th (detect_update cfg sw det s).1 s.last_crop_x).1 ∧
    (reframe_step cfg sw sh tw th det s).2.face_used
      = (crop_for cfg sw sh tw th (detect_update cfg sw det s).1 s.last_crop_x).2.2 :=
  ⟨rfl, rfl, rfl, rfl, rfl, rfl⟩

/-- A detector miss on a frame where a face is remembered never touches
last_face (the fallback branch requires last_face = None). -/
theorem detect_update_miss_keeps_face (cfg : RCfg) (sw : ℤ) (s : RState) (f : ℤ)
    (hface : s.last_face = some f) :
    (detect_update cfg sw none s).1 = some f := by
  unfold detect_update
  by_cases hsamp : s.frame_number % cfg.frame_sample_rate = 0
  · rw [if_pos hsamp]
    rw [if_neg]
    · exact hface
    · rw [hface]
      rintro ⟨-, h⟩
      exact Option.some_ne_none f h
  · rw [if_neg hsamp]
    exact hface

/-- With a remembered face, the crop is computed from that face
(face_used records it), whatever the strategy. -/
theorem crop_for_face_used (cfg : RCfg) (sw sh tw th : ℤ) (f : ℤ) (lcx : Option ℤ) :
    (crop_for cfg sw sh tw th (some f) lcx).2.2 = some f := by
  simp only [crop_for]
  by_cases hk : cfg.keep_in_frame
  · rw [if_pos hk]
  · rw [if_neg hk]

/-- In the Initialized state, a face sitting exactly half a target width
to the right of the crop origin is inside the safe zone (margins are at
most one half), so the crop does not move. -/
theorem keep_in_zone_center (m : ℚ) (hm0 : 0 ≤ m) (hm2 : m ≤ 1 / 2)
    (last center_x fw fh tw th : ℤ) (htw0 : 0 ≤ tw) (htwe : 2 ∣ tw)
    (hface : center_x - last = tw / 2) :
    calculate_crop_keep_in_frame m (some last) center_x fw fh tw th = (last, some last) := by
  have hb : (0 : ℤ) ≤ tw / 2 := by omega
  have hb' : (0 : ℚ) ≤ ((tw / 2 : ℤ) : ℚ) := by exact_mod_cast hb
  have h2 : ((tw / 2 : ℤ) : ℚ) * 2 = (tw : ℚ) := by
    have h2' : (tw / 2) * 2 = tw := by omega
    exact_mod_cast h2'
  have hc1 : ¬ (((center_x - last : ℤ) : ℚ) < (tw : ℚ) * m) := by
    rw [hface]
    push_neg
    calc (tw : ℚ) * m = ((tw / 2 : ℤ) : ℚ) * 2 * m := by rw [h2]
      _ ≤ ((tw / 2 : ℤ) : ℚ) * 2 * (1 / 2) := by
          exact mul_le_mul_of_nonneg_left hm2 (by linarith)
      _ = ((tw / 2 : ℤ) : ℚ) := by ring
  have hc2 : ¬ (((center_x - last : ℤ) : ℚ) > (tw : ℚ) * (1 - m)) := by
    rw [hface]
    push_neg
    calc ((tw / 2 : ℤ) : ℚ) = ((tw / 2 : ℤ) : ℚ) * 2 * (1 / 2) := by ring
      _ ≤ ((tw / 2 : ℤ) : ℚ) * 2 * (1 - m) := by
          exact mul_le_mul_of_nonneg_left (by linarith) (by linarith)
      _ = (tw : ℚ) * (1 - m) := by rw [h2]
  simp only [calculate_crop_keep_in_frame]
  rw [if_neg hc1, if_neg hc2]

/-- First keep_in_frame call on the synthetic frame-centered face yields
exactly the static center crop. -/
theorem keep_first_center (m : ℚ) (fw fh tw th : ℤ)
    (htw0 : 0 ≤ tw) (hsw : tw ≤ fw) (htwe : 2 ∣ tw) :
    calculate_crop_keep_in_frame m none (fw / 2) fw fh tw th
      = ((fw - tw) / 2, some ((fw - tw) / 2)) := by
  simp only [calculate_crop_keep_in_frame]
  have h : max 0 (min (fw / 2 - tw / 2) (fw - tw)) = (fw - tw) / 2 := by omega
  rw [h]

/-- The centered strategy on the synthetic frame-centered face yields
exactly the static center crop. -/
theorem centered_center (fw tw : ℤ) (htw0 : 0 ≤ tw) (hsw : tw ≤ fw) (htwe : 2 ∣ tw) :
    calculate_crop_centered (fw / 2) fw tw = (fw - tw) / 2 := by
  unfold calculate_crop_centered
  omega

/-- Crop decision after the fallback face is installed: both strategies
compute the static center crop, and keep_in_frame remembers it. -/
theorem crop_for_fallback (cfg : RCfg) (sw sh tw th : ℤ) (lcx : Option ℤ)
    (hm0 : 0 ≤ cfg.safe_zone_margin) (hm2 : cfg.safe_zone_margin ≤ 1 / 2)
    (htw0 : 0 ≤ tw) (hsw : tw ≤ sw) (htwe : 2 ∣ tw)
    (hstate : lcx = none ∨ (cfg.keep_in_frame = true ∧ lcx = some ((sw - tw) / 2))) :
    crop_for cfg sw sh tw th (some (sw / 2)) lcx
      = ((sw - tw) / 2,
         (if cfg.keep_in_frame then some ((sw - tw) / 2) else lcx), some (sw / 2)) := by
  simp only [crop_for]
  by_cases hk : cfg.keep_in_frame
  · rw [if_pos hk, if_pos hk]
    rcases hstate with rfl | ⟨-, rfl⟩
    · rw [keep_first_center cfg.safe_zone_margin sw sh tw th htw0 hsw htwe]
    · rw [keep_in_zone_center cfg.safe_zone_margin hm0 hm2 ((sw - tw) / 2) (sw / 2)
        sw sh tw th htw0 htwe (by omega)]
  · rw [if_neg hk, if_neg hk]
    rw [centered_center sw tw htw0 hsw htwe]

/-- One loop iteration of a run that never sees a face: the two-phase
state shape is preserved, the written frame is the static center crop at
the target dimensions, and the no-face counter advances exactly on
sampled frames. -/
theorem noface_step (cfg : RCfg) (sw sh tw th : ℤ)
    (hm0 : 0 ≤ cfg.safe_zone_margin) (hm2 : cfg.safe_zone_margin ≤ 1 / 2)
    (htw0 : 0 ≤ tw) (hsw : tw ≤ sw) (htwe : 2 ∣ tw) (s : RState)
    (hs : noface_state cfg (sw / 2) ((sw - tw) / 2) s) :
    noface_state cfg (sw / 2) ((sw - tw) / 2) (reframe_step cfg sw sh tw th none s).1 ∧
    (reframe_step cfg sw sh tw th none s).2.crop_x = (sw - tw) / 2 ∧
    (reframe_step cfg sw sh tw th none s).2.w = tw ∧
    (reframe_step cfg sw sh tw th none s).2.h = th ∧
    (reframe_step cfg sw sh tw th none s).1.frames_without_face
      = s.frames_without_face
        + (if s.frame_number % cfg.frame_sample_rate = 0 then 1 else 0) ∧
    (reframe_step cfg sw sh tw th none s).1.frame_number = s.frame_number + 1 := by
  obtain ⟨hplf, hpfwf, hpfn, hplcx, hpcx, -⟩ := reframe_step_proj cfg sw sh tw th none s
  obtain ⟨hpw, hph⟩ := reframe_step_dims cfg sw sh tw th none s
  by_cases hsamp : s.frame_number % cfg.frame_sample_rate = 0
  · rcases hs with ⟨hlf, hlcx, hfwf⟩ | ⟨hlf, hfwf, hkeep, hcent⟩
    · -- Phase A (no face yet)
      by_cases hth10 : 10 < s.frames_without_face + 1
      · -- the 11th consecutive sampled miss: fallback fires
        have hdu : detect_update cfg sw none s
            = (some (sw / 2), s.frames_without_face + 1) := by
          unfold detect_update
          rw [if_pos hsamp, if_pos ⟨hth10, hlf⟩]
        have hcf := crop_for_fallback cfg sw sh tw th s.last_crop_x
          hm0 hm2 htw0 hsw htwe (Or.inl hlcx)
        refine ⟨Or.inr ?_, ?_, hpw, hph, ?_, hpfn⟩
        · refine ⟨by rw [hplf, hdu], by rw [hpfwf, hdu]; omega, ?_, ?_⟩
          · intro hk
            rw [hplcx, hdu, hcf]
            simp [hk]
          · intro hk
            rw [hplcx, hdu, hcf, hlcx]
            simp [hk]
        · rw [hpcx, hdu, hcf]
        · rw [hpfwf, hdu, if_pos hsamp]
      · -- still below the threshold: stay in phase A
        have hdu : detect_update cfg sw none s
            = (none, s.frames_without_face + 1) := by
          unfold detect_update
          rw [if_pos hsamp, if_neg (fun hc => hth10 hc.1)]
          rw [hlf]
        have hcf : crop_for cfg sw sh tw th none s.last_crop_x
            = ((sw - tw) / 2, s.last_crop_x, none) := rfl
        refine ⟨Or.inl ⟨by rw [hplf, hdu], ?_, by rw [hpfwf, hdu]; omega⟩,
          ?_, hpw, hph, ?_, hpfn⟩
        · rw [hplcx, hdu, hcf]
          exact hlcx
        · rw [hpcx, hdu, hcf]
        · rw [hpfwf, hdu, if_pos hsamp]
      -- end phase A, sampled
    · -- Phase B (fallback face installed)
      have hdu : detect_update cfg sw none s
          = (some (sw / 2), s.frames_without_face + 1) := by
        unfold detect_update
        rw [if_pos hsamp, if_neg]
        · rw [hlf]
        · rw [hlf]
          rintro ⟨-, h⟩
          exact Option.some_ne_none _ h
      have hstate : s.last_crop_x = none ∨
          (cfg.keep_in_frame = true ∧ s.last_crop_x = some ((sw - tw) / 2)) := by
        by_cases hk : cfg.keep_in_frame
        · exact Or.inr ⟨hk, hkeep hk⟩
        · exact Or.inl (hcent (by simpa using hk))
      have hcf := crop_for_fallback cfg sw sh tw th s.last_crop_x
        hm0 hm2 htw0 hsw htwe hstate
      refine ⟨Or.inr ⟨by rw [hplf, hdu], by rw [hpfwf, hdu]; omega, ?_, ?_⟩,
        ?_, hpw, hph, ?_, hpfn⟩
      · intro hk
        rw [hplcx, hdu, hcf]
        simp [hk]
      · intro hk
        rw [hplcx, hdu, hcf]
        simp [hk]
        exact hcent hk
      · rw [hpcx, hdu, hcf]
      · rw [hpfwf, hdu, if_pos hsamp]
  · -- unsampled frame: detection not run, state unchanged
    have hdu : detect_update cfg sw none s = (s.last_face, s.frames_without_face) := by
      unfold detect_update
      rw [if_neg hsamp]
    rcases hs with ⟨hlf, hlcx, hfwf⟩ | ⟨hlf, hfwf, hkeep, hcent⟩
    · have hcf : crop_for cfg sw sh tw th s.last_face s.last_crop_x
          = ((sw - tw) / 2, s.last_crop_x, none) := by
        rw [hlf]
        rfl
      refine ⟨Or.inl ⟨by rw [hplf, hdu, hlf], ?_, by rw [hpfwf, hdu]; omega⟩,
        ?_, hpw, hph, ?_, hpfn⟩
      · rw [hplcx, hdu, hcf]
        exact hlcx
      · rw [hpcx, hdu, hcf]
      · rw [hpfwf, hdu, if_neg hsamp]
        omega
    · have hstate : s.last_crop_x = none ∨
          (cfg.keep_in_frame = true ∧ s.last_crop_x = some ((sw - tw) / 2)) := by
        by_cases hk : cfg.keep_in_frame
        · exact Or.inr ⟨hk, hkeep hk⟩
        · exact Or.inl (hcent (by simpa using hk))
      have hcf : crop_for cfg sw sh tw th s.last_face s.last_crop_x
          = ((sw - tw) / 2,
             (if cfg.keep_in_frame then some ((sw - tw) / 2) else s.last_crop_x),
             some (sw / 2)) := by
        rw [hlf]
        exact crop_for_fallback cfg sw sh tw th s.last_crop_x hm0 hm2 htw0 hsw htwe hstate
      refine ⟨Or.inr ⟨by rw [hplf, hdu, hlf], by rw [hpfwf, hdu]; omega, ?_, ?_⟩,
        ?_, hpw, hph, ?_, hpfn⟩
      · intro hk
        rw [hplcx, hdu, hcf]
        simp [hk]
      · intro hk
        rw [hplcx, hdu, hcf]
        simp [hk]
        exact hcent hk
      · rw [hpcx, hdu, hcf]
      · rw [hpfwf, hdu, if_neg hsamp]
        omega

/-- Unfolding lemma for sampled_count. -/
theorem sampled_count_succ (rate j n : ℕ) :
    sampled_count rate j (n + 1)
      = (if j % rate = 0 then 1 else 0) + sampled_count rate (j + 1) n := rfl

/-- A whole run that never sees a face: state shape preserved, all
frames are static center crops at target dimensions, and the no-face
counter ends at its start value plus the number of sampled frames. -/
theorem noface_run (cfg : RCfg) (sw sh tw th : ℤ)
    (hm0 : 0 ≤ cfg.safe_zone_margin) (hm2 : cfg.safe_zone_margin ≤ 1 / 2)
    (htw0 : 0 ≤ tw) (hsw : tw ≤ sw) (htwe : 2 ∣ tw) :
    ∀ (dets : List (Option ℤ)) (s : RState), (∀ d ∈ dets, d = none) →
    noface_state cfg (sw / 2) ((sw - tw) / 2) s →
    noface_state cfg (sw / 2) ((sw - tw) / 2) (reframe_run cfg sw sh tw th s dets).2 ∧
    (reframe_run cfg sw sh tw th s dets).2.frames_without_face
      = s.frames_without_face
        + sampled_count cfg.frame_sample_rate s.frame_number dets.length ∧
    (reframe_run cfg sw sh tw th s dets).1.length = dets.length ∧
    ∀ fr ∈ (reframe_run cfg sw sh tw th s dets).1,
      fr.crop_x = (sw - tw) / 2 ∧ fr.w = tw ∧ fr.h = th := by
  intro dets
  induction dets with
  | nil =>
      intro s _ hs
      refine ⟨hs, by simp [reframe_run, sampled_count], by simp [reframe_run], ?_⟩
      intro fr hfr
      simp [reframe_run] at hfr
  | cons d rest ih =>
      intro s hall hs
      have hd : d = none := hall d (List.mem_cons_self d rest)
      subst hd
      obtain ⟨hs', hcx, hw, hh, hfwf, hfn⟩ :=
        noface_step cfg sw sh tw th hm0 hm2 htw0 hsw htwe s hs
      obtain ⟨ihs, ihfwf, ihlen, ihfr⟩ :=
        ih (reframe_step cfg sw sh tw th none s).1
          (fun x hx => hall x (List.mem_cons_of_mem _ hx)) hs'
      refine ⟨ihs, ?_, ?_, ?_⟩
      · simp only [reframe_run, List.length_cons, sampled_count_succ]
        rw [ihfwf, hfwf, hfn]
        omega
      · simp only [reframe_run, List.length_cons]
        rw [ihlen]
      · intro fr hfr
        simp only [reframe_run, List.mem_cons] at hfr
        rcases hfr with rfl | hfr
        · exact ⟨hcx, hw, hh⟩
        · exact ihfr fr hfr

/-- C8: in a clip where the detector reports no face on every frame, the
reframe pass completes without error, writes exactly one frame per input
frame — each a static centered crop (crop_x = (scaled_width -
target_width)/2) at exactly the target dimensions, so the output is a
video, not an error and not empty — and once more than 10 consecutive
sampled frames have gone without a detection (default threshold 10), the
planner has installed the fallback centered face
(last_face = scaled frame center) in place of a detected face.
Stated for a safe-zone margin in [0, 1/2] (default 0.15) and an even
target width (e.g. 1080). -/
theorem claim_c8_faceless_clip_centered_and_completes
    (cfg : RCfg) (frame_width frame_height target_width target_height : ℤ)
    (start_frame : ℕ) (dets : List (Option ℤ))
    (h1 : 0 < frame_width) (h2 : 0 < frame_height)
    (h3 : 0 < target_width) (h4 : 0 < target_height)
    (hm0 : 0 ≤ cfg.safe_zone_margin) (hm2 : cfg.safe_zone_margin ≤ 1 / 2)
    (htwe : 2 ∣ target_width)
    (hnone : ∀ d ∈ dets, d = none) :
    ∃ frames fin,
      reframe_video cfg frame_width frame_height target_width target_height
        start_frame dets = Except.ok (frames, fin) ∧
      frames.length = dets.length ∧
      (∀ fr ∈ frames,
        fr.crop_x =
          ((scaled_dims frame_width frame_height target_width target_height).1
            - target_width) / 2 ∧
        fr.w = target_width ∧ fr.h = target_height) ∧
      (10 < sampled_count cfg.frame_sample_rate start_frame dets.length →
        fin.last_face =
          some ((scaled_dims frame_width frame_height target_width target_height).1 / 2)) := by
  obtain ⟨hsw, hsh⟩ :=
    scaled_dims_ge frame_width frame_height target_width target_height h1 h2 h3 h4
  obtain ⟨hs', hfwf, hlen, hfr⟩ := noface_run cfg
    (scaled_dims frame_width frame_height target_width target_height).1
    (scaled_dims frame_width frame_height target_width target_height).2
    target_width target_height hm0 hm2 (le_of_lt h3) hsw htwe dets
    (initRState start_frame) hnone (Or.inl ⟨rfl, rfl, by simp [initRState]⟩)
  refine ⟨(reframe_run cfg
      (scaled_dims frame_width frame_height target_width target_height).1
      (scaled_dims frame_width frame_height target_width target_height).2
      target_width target_height (initRState start_frame) dets).1,
    (reframe_run cfg
      (scaled_dims frame_width frame_height target_width target_height).1
      (scaled_dims frame_width frame_height target_width target_height).2
      target_width target_height (initRState start_frame) dets).2, ?_, hlen, hfr, ?_⟩
  · unfold reframe_video
    rw [if_neg (by push_neg; exact ⟨hsw, hsh⟩)]
  · intro hcount
    rcases hs' with ⟨-, -, hle⟩ | ⟨hlf, -, -, -⟩
    · exfalso
      rw [hfwf] at hle
      simp [initRState] at hle
      omega
    · exact hlf

/-- Witness for C8: eleven frames with no detection at sample rate 1,
keep_in_frame strategy, default margin, canonical resolutions. -/
theorem claim_c8_faceless_clip_centered_and_completes_witness :
    ((0 : ℤ) < 1920 ∧ (0 : ℤ) < 1080 ∧ (0 : ℚ) ≤ 3 / 20 ∧ (3 / 20 : ℚ) ≤ 1 / 2 ∧
     (2 : ℤ) ∣ 1080 ∧
     (∀ d ∈ (List.replicate 11 (none : Option ℤ)), d = none) ∧
     10 < sampled_count 1 0 (List.replicate 11 (none : Option ℤ)).length) ∧
    ∃ frames fin,
      reframe_video ⟨1, true, 3 / 20⟩ 1920 1080 1080 1920 0
        (List.replicate 11 (none : Option ℤ)) = Except.ok (frames, fin) ∧
      frames.length = (List.replicate 11 (none : Option ℤ)).length ∧
      (∀ fr ∈ frames,
        fr.crop_x = ((scaled_dims 1920 1080 1080 1920).1 - 1080) / 2 ∧
        fr.w = 1080 ∧ fr.h = 1920) ∧
      (10 < sampled_count 1 0 (List.replicate 11 (none : Option ℤ)).length →
        fin.last_face = some ((scaled_dims 1920 1080 1080 1920).1 / 2)) :=
  ⟨⟨by decide, by decide, by norm_num, by norm_num, by decide, by decide, by decide⟩,
   claim_c8_faceless_clip_centered_and_completes ⟨1, true, 3 / 20⟩ 1920 1080 1080 1920 0
     (List.replicate 11 none) (by decide) (by decide) (by decide) (by decide)
     (by norm_num) (by norm_num) (by decide) (by decide)⟩

/-- One step with a remembered face and a detector miss keeps the face
and computes the crop from it. -/
theorem face_kept_step (cfg : RCfg) (sw sh tw th : ℤ) (s : RState) (f : ℤ)
    (hface : s.last_face = some f) :
    (reframe_step cfg sw sh tw th none s).1.last_face = some f ∧
    (reframe_step cfg sw sh tw th none s).2.face_used = some f := by
  obtain ⟨hplf, -, -, -, -, hpfu⟩ := reframe_step_proj cfg sw sh tw th none s
  have hdu := detect_update_miss_keeps_face cfg sw s f hface
  constructor
  · rw [hplf, hdu]
  · rw [hpfu, hdu]
    exact crop_for_face_used cfg sw sh tw th f s.last_crop_x

/-- A run of detector misses starting with a remembered face keeps the
face and computes every crop from it. -/
theorem face_kept_run (cfg : RCfg) (sw sh tw th : ℤ) (f : ℤ) :
    ∀ (dets : List (Option ℤ)) (s : RState),
    s.last_face = some f → (∀ d ∈ dets, d = none) →
    (reframe_run cfg sw sh tw th s dets).2.last_face = some f ∧
    (reframe_run cfg sw sh tw th s dets).1.length = dets.length ∧
    ∀ fr ∈ (reframe_run cfg sw sh tw th s dets).1, fr.face_used = some f := by
  intro dets
  induction dets with
  | nil =>
      intro s hface _
      exact ⟨hface, rfl, fun fr hfr => by simp [reframe_run] at hfr⟩
  | cons d rest ih =>
      intro s hface hall
      have hd : d = none := hall d (List.mem_cons_self d rest)
      subst hd
      obtain ⟨hlf, hfu⟩ := face_kept_step cfg sw sh tw th s f hface
      obtain ⟨ihlf, ihlen, ihfr⟩ := ih (reframe_step cfg sw sh tw th none s).1 hlf
        (fun x hx => hall x (List.mem_cons_of_mem _ hx))
      refine ⟨ihlf, ?_, ?_⟩
      · simp only [reframe_run, List.length_cons]
        rw [ihlen]
      · intro fr hfr
        simp only [reframe_run, List.mem_cons] at hfr
        rcases hfr with rfl | hfr
        · exact hfu
        · exact ihfr fr hfr

/-- C10: once some face has been detected (last_face = some f), a run of
nothing but detector misses — of any length — never activates the
centered-crop fallback: the fallback branch requires last_face = None,
so last_face stays exactly f, and every written frame's crop is computed
from that unchanged remembered face f (never from the no-face static
branch, never from the synthetic fallback face). -/
theorem claim_c10_no_fallback_after_first_detection
    (cfg : RCfg) (sw sh tw th : ℤ) (dets : List (Option ℤ)) (s : RState) (f : ℤ)
    (hface : s.last_face = some f) (hnone : ∀ d ∈ dets, d = none) :
    (reframe_run cfg sw sh tw th s dets).2.last_face = some f ∧
    (reframe_run cfg sw sh tw th s dets).1.length = dets.length ∧
    ∀ fr ∈ (reframe_run cfg sw sh tw th s dets).1, fr.face_used = some f :=
  face_kept_run cfg sw sh tw th f dets s hface hnone

/-- Witness for C10: a three-miss run under the centered strategy with a
face remembered at x = 500. -/
theorem claim_c10_no_fallback_after_first_detection_witness :
    ((⟨7, some 500, 2, none⟩ : RState).last_face = some 500 ∧
     (∀ d ∈ [(none : Option ℤ), none, none], d = none)) ∧
    ((reframe_run ⟨3, false, 3 / 20⟩ 3413 1920 1080 1920
        ⟨7, some 500, 2, none⟩ [none, none, none]).2.last_face = some 500 ∧
     (reframe_run ⟨3, false, 3 / 20⟩ 3413 1920 1080 1920
        ⟨7, some 500, 2, none⟩ [none, none, none]).1.length = 3 ∧
     ∀ fr ∈ (reframe_run ⟨3, false, 3 / 20⟩ 3413 1920 1080 1920
        ⟨7, some 500, 2, none⟩ [none, none, none]).1, fr.face_used = some 500) :=
  ⟨⟨rfl, by decide⟩,
   claim_c10_no_fallback_after_first_detection ⟨3, false, 3 / 20⟩ 3413 1920 1080 1920
     [none, none, none] ⟨7, some 500, 2, none⟩ 500 rfl (by decide)⟩

/-! # Exporter lemmas -/

/-- Pass 1 always maps its audio from the trimmed original source: with
face tracking the silent intermediate is input 0 and the trimmed source
is input 1; without it the trimmed source is input 0. -/
theorem pass1_cmd_audio (cfg : ExportCfg) (env : ClipEnv) :
    ∃ i, (pass1_cmd cfg env).map_audio = some i ∧
      (pass1_cmd cfg env).inputs.get? i = some ⟨true, FKind.source⟩ := by
  cases huft : using_face_tracking cfg env with
  | true => exact ⟨1, by simp [pass1_cmd, huft], by simp [pass1_cmd, huft]⟩
  | false => exact ⟨0, by simp [pass1_cmd, huft], by simp [pass1_cmd, huft]⟩

/-- The first invocation of every clip export is pass 1. -/
theorem export_invocations_head (cfg : ExportCfg) (env : ClipEnv) :
    (export_single_clip cfg env).invocations.head? = some (pass1_cmd cfg env) := by
  unfold export_single_clip
  split_ifs <;> rfl

/-- When both transcodes exit 0, the clip export returns the final path. -/
theorem export_result_ok (cfg : ExportCfg) (env : ClipEnv)
    (hp1 : env.pass1_exit = 0) (hp2 : env.pass2_exit = 0) :
    (export_single_clip cfg env).result = some FKind.final := by
  unfold export_single_clip
  split_ifs with h1 h2 h3
  · exact absurd hp1 h1
  · exact absurd hp2 h3
  · rfl
  · rfl

/-- The vfilters of pass 1 are the simple filters plus (if the logo is
active) the overlay. -/
theorem pass1_cmd_vfilters (cfg : ExportCfg) (env : ClipEnv) :
    (pass1_cmd cfg env).vfilters = simple_filters cfg env ++
      (if logo_active cfg env then [VFilter.overlay (overlay_position cfg.logo_position)]
       else []) := rfl

/-- Every element of the aspect part is an aspect filter. -/
theorem aspect_filters_shape (cfg : ExportCfg) (env : ClipEnv) :
    ∀ v ∈ aspect_filters cfg env, ∃ s, v = VFilter.aspect s := by
  intro v hv
  unfold aspect_filters at hv
  split at hv
  · split at hv
    · split at hv
      · simp at hv
        exact ⟨_, hv⟩
      · simp at hv
    · simp at hv
  · simp at hv

/-- Every element of the subtitle part is the subtitle burn filter. -/
theorem single_sub_shape (cfg : ExportCfg) (env : ClipEnv) :
    ∀ v ∈ single_pass_subtitle_filters cfg env,
      v = VFilter.subtitles cfg.subtitle_style := by
  intro v hv
  unfold single_pass_subtitle_filters at hv
  split at hv
  · simp at hv
    exact hv
  · simp at hv

/-- In the two-step case the subtitle part of pass 1 is empty. -/
theorem single_sub_empty_of_two_steps (cfg : ExportCfg) (env : ClipEnv)
    (hn : needs_two_steps cfg env = true) :
    single_pass_subtitle_filters cfg env = [] := by
  unfold single_pass_subtitle_filters
  rw [if_neg]
  simp [hn]

/-- The simple filters contain no overlay constructor. -/
theorem simple_filters_no_overlay (cfg : ExportCfg) (env : ClipEnv) :
    ∀ p, VFilter.overlay p ∉ simple_filters cfg env := by
  intro p hmem
  rcases List.mem_append.mp hmem with h | h
  · obtain ⟨s, hs⟩ := aspect_filters_shape cfg env _ h
    simp at hs
  · have hs := single_sub_shape cfg env _ h
    simp at hs

/-- In the two-step case the simple filters contain no subtitle burn
filter (it is deferred entirely to pass 2). -/
theorem simple_filters_no_subs_of_two_steps (cfg : ExportCfg) (env : ClipEnv)
    (hn : needs_two_steps cfg env = true) :
    ∀ st, VFilter.subtitles st ∉ simple_filters cfg env := by
  intro st hmem
  rcases List.mem_append.mp hmem with h | h
  · obtain ⟨s, hs⟩ := aspect_filters_shape cfg env _ h
    simp at hs
  · rw [single_sub_empty_of_two_steps cfg env hn] at h
    simp at h

/-- In the single-pass case the subtitle burn filter sits in pass 1
exactly when subtitles are requested and the SRT file exists. -/
theorem subtitles_mem_simple (cfg : ExportCfg) (env : ClipEnv)
    (hn : needs_two_steps cfg env = false) :
    (VFilter.subtitles cfg.subtitle_style ∈ simple_filters cfg env) ↔
      (cfg.add_subtitles && subtitle_assigned cfg && env.srt_exists) = true := by
  constructor
  · intro hmem
    rcases List.mem_append.mp hmem with h | h
    · exfalso
      obtain ⟨s, hs⟩ := aspect_filters_shape cfg env _ h
      simp at hs
    · unfold single_pass_subtitle_filters at h
      split at h
      · next hc =>
          rw [hn] at hc
          simpa using hc
      · simp at h
  · intro hflag
    apply List.mem_append_right
    unfold single_pass_subtitle_filters
    rw [if_pos (by rw [hn]; simpa using hflag)]
    exact List.mem_cons_self _ _

/-- needs_two_steps implies the logo is active. -/
theorem needs_two_steps_logo (cfg : ExportCfg) (env : ClipEnv)
    (hn : needs_two_steps cfg env = true) : logo_active cfg env = true := by
  simp only [needs_two_steps, Bool.and_eq_true] at hn
  exact hn.1.1.1

/-! # Exporter claims -/

/-- C1: with pass 1 exiting 0, the export runs exactly two sequential
ffmpeg transcode invocations precisely when both logo overlay and
subtitle burn-in are active (needs_two_steps: both requested and both
files exist): pass 1 carries -sn (discarding subtitle streams), contains
no subtitle burn filter, applies the logo overlay (and the face-tracked
source or the static crop/scale filters, per simple_filters), and writes
the step-1 temp; pass 2 applies only the subtitle burn filter with the
audio stream copied unchanged.  When at most one of the two is active, a
single invocation runs, combining all applicable filters: the subtitle
filter is present iff subtitles are requested with an existing SRT, the
overlay iff the logo is active. -/
theorem claim_c1_two_pass_rule
    (cfg : ExportCfg) (env : ClipEnv) (hp1 : env.pass1_exit = 0) :
    (needs_two_steps cfg env = true →
      (export_single_clip cfg env).invocations = [pass1_cmd cfg env, pass2_cmd cfg] ∧
      (pass1_cmd cfg env).sn = true ∧
      (∀ st, VFilter.subtitles st ∉ (pass1_cmd cfg env).vfilters) ∧
      VFilter.overlay (overlay_position cfg.logo_position) ∈ (pass1_cmd cfg env).vfilters ∧
      (∀ v ∈ aspect_filters cfg env, v ∈ (pass1_cmd cfg env).vfilters) ∧
      (pass1_cmd cfg env).out = FKind.step1 ∧
      (using_face_tracking cfg env = true →
        (pass1_cmd cfg env).inputs.head? = some ⟨false, FKind.reframed⟩) ∧
      (pass2_cmd cfg).vfilters = [VFilter.subtitles cfg.subtitle_style] ∧
      (pass2_cmd cfg).audio_copy = true ∧
      (pass2_cmd cfg).inputs = [⟨false, FKind.step1⟩] ∧
      (pass2_cmd cfg).out = FKind.final) ∧
    (needs_two_steps cfg env = false →
      (export_single_clip cfg env).invocations = [pass1_cmd cfg env] ∧
      (pass1_cmd cfg env).sn = false ∧
      (pass1_cmd cfg env).out = FKind.final ∧
      ((VFilter.subtitles cfg.subtitle_style ∈ (pass1_cmd cfg env).vfilters) ↔
        (cfg.add_subtitles && subtitle_assigned cfg && env.srt_exists) = true) ∧
      ((VFilter.overlay (overlay_position cfg.logo_position)
          ∈ (pass1_cmd cfg env).vfilters) ↔ logo_active cfg env = true)) := by
  constructor
  · intro hn
    refine ⟨?_, ?_, ?_, ?_, ?_, ?_, ?_, rfl, rfl, rfl, rfl⟩
    · unfold export_single_clip
      rw [if_neg (by simp [hp1]), if_pos hn]
      split_ifs <;> rfl
    · simp [pass1_cmd, hn]
    · intro st hmem
      rw [pass1_cmd_vfilters] at hmem
      rcases List.mem_append.mp hmem with h | h
      · exact simple_filters_no_subs_of_two_steps cfg env hn st h
      · rw [if_pos (needs_two_steps_logo cfg env hn)] at h
        simp at h
    · rw [pass1_cmd_vfilters]
      apply List.mem_append_right
      rw [if_pos (needs_two_steps_logo cfg env hn)]
      exact List.mem_cons_self _ _
    · intro v hv
      rw [pass1_cmd_vfilters]
      exact List.mem_append_left _ (List.mem_append_left _ hv)
    · simp [pass1_cmd, hn]
    · intro huft
      simp [pass1_cmd, huft]
  · intro hn
    refine ⟨?_, ?_, ?_, ?_, ?_⟩
    · unfold export_single_clip
      rw [if_neg (by simp [hp1]), if_neg (by simp [hn])]
    · simp [pass1_cmd, hn]
    · simp [pass1_cmd, hn]
    · rw [pass1_cmd_vfilters]
      constructor
      · intro hmem
        rcases List.mem_append.mp hmem with h | h
        · exact (subtitles_mem_simple cfg env hn).mp h
        · exfalso
          by_cases hla : logo_active cfg env = true
          · rw [if_pos hla] at h
            simp at h
          · rw [if_neg hla] at h
            simp at h
      · intro hflag
        exact List.mem_append_left _ ((subtitles_mem_simple cfg env hn).mpr hflag)
    · rw [pass1_cmd_vfilters]
      constructor
      · intro hmem
        rcases List.mem_append.mp hmem with h | h
        · exact absurd h (simple_filters_no_overlay cfg env _)
        · by_cases hla : logo_active cfg env = true
          · exact hla
          · rw [if_neg hla] at h
            simp at h
      · intro hla
        apply List.mem_append_right
        rw [if_pos hla]
        exact List.mem_cons_self _ _

/-- Witness for C1: logo and subtitles both requested and both files
present, transcodes succeed (two-step branch). -/
theorem claim_c1_two_pass_rule_witness :
    ((⟨none, true, true, "default", false, true, true, "top-right"⟩ : ExportCfg) =
       ⟨none, true, true, "default", false, true, true, "top-right"⟩ ∧
     (⟨true, true, false, false, 0, 0⟩ : ClipEnv).pass1_exit = 0 ∧
     needs_two_steps ⟨none, true, true, "default", false, true, true, "top-right"⟩
       ⟨true, true, false, false, 0, 0⟩ = true) ∧
    ((export_single_clip ⟨none, true, true, "default", false, true, true, "top-right"⟩
        ⟨true, true, false, false, 0, 0⟩).invocations
      = [pass1_cmd ⟨none, true, true, "default", false, true, true, "top-right"⟩
           ⟨true, true, false, false, 0, 0⟩,
         pass2_cmd ⟨none, true, true, "default", false, true, true, "top-right"⟩] ∧
     (pass1_cmd ⟨none, true, true, "default", false, true, true, "top-right"⟩
        ⟨true, true, false, false, 0, 0⟩).sn = true ∧
     (∀ st, VFilter.subtitles st ∉
        (pass1_cmd ⟨none, true, true, "default", false, true, true, "top-right"⟩
          ⟨true, true, false, false, 0, 0⟩).vfilters) ∧
     VFilter.overlay (overlay_position "top-right") ∈
        (pass1_cmd ⟨none, true, true, "default", false, true, true, "top-right"⟩
          ⟨true, true, false, false, 0, 0⟩).vfilters ∧
     (∀ v ∈ aspect_filters ⟨none, true, true, "default", false, true, true, "top-right"⟩
          ⟨true, true, false, false, 0, 0⟩,
        v ∈ (pass1_cmd ⟨none, true, true, "default", false, true, true, "top-right"⟩
          ⟨true, true, false, false, 0, 0⟩).vfilters) ∧
     (pass1_cmd ⟨none, true, true, "default", false, true, true, "top-right"⟩
        ⟨true, true, false, false, 0, 0⟩).out = FKind.step1 ∧
     (using_face_tracking ⟨none, true, true, "default", false, true, true, "top-right"⟩
        ⟨true, true, false, false, 0, 0⟩ = true →
       (pass1_cmd ⟨none, true, true, "default", false, true, true, "top-right"⟩
          ⟨true, true, false, false, 0, 0⟩).inputs.head? = some ⟨false, FKind.reframed⟩) ∧
     (pass2_cmd ⟨none, true, true, "default", false, true, true, "top-right"⟩).vfilters
       = [VFilter.subtitles "default"] ∧
     (pass2_cmd ⟨none, true, true, "default", false, true, true, "top-right"⟩).audio_copy
       = true ∧
     (pass2_cmd ⟨none, true, true, "default", false, true, true, "top-right"⟩).inputs
       = [⟨false, FKind.step1⟩] ∧
     (pass2_cmd ⟨none, true, true, "default", false, true, true, "top-right"⟩).out
       = FKind.final) :=
  ⟨⟨rfl, rfl, rfl⟩,
   (claim_c1_two_pass_rule ⟨none, true, true, "default", false, true, true, "top-right"⟩
     ⟨true, true, false, false, 0, 0⟩ rfl).1 rfl⟩

/-- The per-clip fold accumulates exactly the ids of the succeeded
clips, in order. -/
theorem export_clips_go (cfg : ExportCfg) :
    ∀ (jobs : List (ℕ × ClipEnv)) (acc : List ℕ),
      jobs.foldl (fun acc job =>
        match (export_single_clip cfg job.2).result with
        | some _ => acc ++ [job.1]
        | none => acc) acc
      = acc ++ jobs.filterMap (fun job =>
          if (export_single_clip cfg job.2).result.isSome then some job.1 else none) := by
  intro jobs
  induction jobs with
  | nil =>
      intro acc
      simp
  | cons j rest ih =>
      intro acc
      rw [List.foldl_cons, ih]
      cases hres : (export_single_clip cfg j.2).result with
      | some p => simp [hres]
      | none => simp [hres]

/-- Success count plus failure count is the batch length. -/
theorem success_length_plus_failures (cfg : ExportCfg) :
    ∀ jobs : List (ℕ × ClipEnv),
      (jobs.filterMap (fun job =>
          if (export_single_clip cfg job.2).result.isSome then some job.1 else none)).length
        + jobs.countP (fun job => (export_single_clip cfg job.2).result.isNone)
      = jobs.length := by
  intro jobs
  induction jobs with
  | nil => simp
  | cons j rest ih =>
      cases hres : (export_single_clip cfg j.2).result with
      | some p =>
          simp [List.filterMap_cons, List.countP_cons, hres]
          omega
      | none =>
          simp [List.filterMap_cons, List.countP_cons, hres]
          omega

/-- C3: export_clips never aborts the batch on an individual clip
failure.  Every per-clip stage outcome is a value in the model because
the code converts each stage failure to one — reframe exceptions are
caught in the per-clip try/except, generate_srt_for_clip catches its own
exceptions and returns None, and both transcodes run with check=False
and are tested by return code — so for every configuration and every
assignment of per-clip outcomes (including reframe raising and failing
passes), the batch processes all clips and returns exactly the output
paths (clip ids) of the clips that succeeded, in order; its length is
the number of clips minus the number of failed clips (N-1 when exactly
one of N fails). -/
theorem claim_c3_per_clip_failures_never_abort_batch
    (cfg : ExportCfg) (jobs : List (ℕ × ClipEnv)) :
    export_clips cfg jobs
      = jobs.filterMap (fun job =>
          if (export_single_clip cfg job.2).result.isSome then some job.1 else none) ∧
    (export_clips cfg jobs).length
        + jobs.countP (fun job => (export_single_clip cfg job.2).result.isNone)
      = jobs.length := by
  have h1 : export_clips cfg jobs
      = jobs.filterMap (fun job =>
          if (export_single_clip cfg job.2).result.isSome then some job.1 else none) := by
    unfold export_clips
    rw [export_clips_go]
    simp
  refine ⟨h1, ?_⟩
  rw [h1]
  exact success_length_plus_failures cfg jobs

/-- C5: when face tracking is requested for a 9:16 export and the
reframe invocation raises, the exception is caught and the clip is still
exported from the original source through the static center-crop path
(the 9:16 crop/scale filter, no reframed input anywhere), and — the
transcodes succeeding — the clip export returns its output path. -/
theorem claim_c5_reframe_exception_falls_back_to_static_crop
    (cfg : ExportCfg) (env : ClipEnv)
    (hft : cfg.enable_face_tracking = true) (har : cfg.aspect = some "9:16")
    (hraise : env.reframe_raises = true)
    (hp1 : env.pass1_exit = 0) (hp2 : env.pass2_exit = 0) :
    (export_single_clip cfg env).result = some FKind.final ∧
    (export_single_clip cfg env).invocations.head? = some (pass1_cmd cfg env) ∧
    (pass1_cmd cfg env).inputs.head? = some ⟨true, FKind.source⟩ ∧
    (∀ i ∈ (pass1_cmd cfg env).inputs, i.file ≠ FKind.reframed) ∧
    VFilter.aspect "crop=ih*9/16:ih,scale=1080:1920" ∈ (pass1_cmd cfg env).vfilters := by
  have hro : reframe_ok cfg env = false := by
    simp [reframe_ok, hraise]
  have huft : using_face_tracking cfg env = false := by
    simp [using_face_tracking, hro]
  have haf : aspect_after_ft cfg env = some "9:16" := by
    simp [aspect_after_ft, hro, har]
  have hasp : aspect_filters cfg env
      = [VFilter.aspect "crop=ih*9/16:ih,scale=1080:1920"] := by
    unfold aspect_filters
    rw [haf, huft]
    rfl
  refine ⟨export_result_ok cfg env hp1 hp2, export_invocations_head cfg env, ?_, ?_, ?_⟩
  · simp [pass1_cmd, huft]
  · intro i hi
    by_cases hla : logo_active cfg env = true
    · simp [pass1_cmd, huft, hla] at hi
      rcases hi with rfl | rfl <;> simp
    · simp [pass1_cmd, huft, hla] at hi
      rcases hi with rfl
      simp
  · rw [pass1_cmd_vfilters]
    apply List.mem_append_left
    unfold simple_filters
    rw [hasp]
    exact List.mem_append_left _ (List.mem_cons_self _ _)

/-- Witness for C5: face tracking requested at 9:16, reframe raises,
both transcodes succeed. -/
theorem claim_c5_reframe_exception_falls_back_to_static_crop_witness :
    ((⟨some "9:16", false, false, "default", true, false, false, "top-right"⟩ :
        ExportCfg).enable_face_tracking = true ∧
     (⟨false, false, true, true, 0, 0⟩ : ClipEnv).reframe_raises = true) ∧
    ((export_single_clip ⟨some "9:16", false, false, "default", true, false, false,
        "top-right"⟩ ⟨false, false, true, true, 0, 0⟩).result = some FKind.final ∧
     (export_single_clip ⟨some "9:16", false, false, "default", true, false, false,
        "top-right"⟩ ⟨false, false, true, true, 0, 0⟩).invocations.head?
       = some (pass1_cmd ⟨some "9:16", false, false, "default", true, false, false,
           "top-right"⟩ ⟨false, false, true, true, 0, 0⟩) ∧
     (pass1_cmd ⟨some "9:16", false, false, "default", true, false, false, "top-right"⟩
        ⟨false, false, true, true, 0, 0⟩).inputs.head? = some ⟨true, FKind.source⟩ ∧
     (∀ i ∈ (pass1_cmd ⟨some "9:16", false, false, "default", true, false, false,
        "top-right"⟩ ⟨false, false, true, true, 0, 0⟩).inputs,
        i.file ≠ FKind.reframed) ∧
     VFilter.aspect "crop=ih*9/16:ih,scale=1080:1920" ∈
       (pass1_cmd ⟨some "9:16", false, false, "default", true, false, false, "top-right"⟩
         ⟨false, false, true, true, 0, 0⟩).vfilters) :=
  ⟨⟨rfl, rfl⟩,
   claim_c5_reframe_exception_falls_back_to_static_crop
     ⟨some "9:16", false, false, "default", true, false, false, "top-right"⟩
     ⟨false, false, true, true, 0, 0⟩ rfl rfl rfl rfl rfl⟩

/-- C6: in a two-pass export whose second (subtitle) pass exits non-zero,
pass 1's output is renamed to the final output path (preserved as the
degraded deliverable, content fromPass1; the step-1 temp is gone) while
the clip is reported failed: the function returns no path. -/
theorem claim_c6_pass2_failure_preserves_pass1_output
    (cfg : ExportCfg) (env : ClipEnv)
    (hlogo : logo_active cfg env = true)
    (hsub : cfg.add_subtitles = true) (htr : cfg.has_transcript = true)
    (hsrt : env.srt_exists = true)
    (hp1 : env.pass1_exit = 0) (hp2 : env.pass2_exit ≠ 0) :
    (export_single_clip cfg env).result = none ∧
    (export_single_clip cfg env).files.final = some FinalTag.fromPass1 ∧
    (export_single_clip cfg env).invocations = [pass1_cmd cfg env, pass2_cmd cfg] ∧
    (export_single_clip cfg env).files.step1_temp = false := by
  have hn : needs_two_steps cfg env = true := by
    simp [needs_two_steps, subtitle_assigned, hlogo, hsub, htr, hsrt]
  unfold export_single_clip
  rw [if_neg (by simp [hp1]), if_pos hn, if_pos hp2]
  exact ⟨rfl, rfl, rfl, rfl⟩

/-- Witness for C6: logo and subtitles active, pass 1 succeeds, pass 2
exits 1. -/
theorem claim_c6_pass2_failure_preserves_pass1_output_witness :
    (logo_active ⟨none, true, true, "default", false, true, true, "top-right"⟩
       ⟨true, true, false, false, 0, 1⟩ = true ∧
     (⟨true, true, false, false, 0, 1⟩ : ClipEnv).pass2_exit ≠ 0) ∧
    ((export_single_clip ⟨none, true, true, "default", false, true, true, "top-right"⟩
        ⟨true, true, false, false, 0, 1⟩).result = none ∧
     (export_single_clip ⟨none, true, true, "default", false, true, true, "top-right"⟩
        ⟨true, true, false, false, 0, 1⟩).files.final = some FinalTag.fromPass1 ∧
     (export_single_clip ⟨none, true, true, "default", false, true, true, "top-right"⟩
        ⟨true, true, false, false, 0, 1⟩).invocations
       = [pass1_cmd ⟨none, true, true, "default", false, true, true, "top-right"⟩
            ⟨true, true, false, false, 0, 1⟩,
          pass2_cmd ⟨none, true, true, "default", false, true, true, "top-right"⟩] ∧
     (export_single_clip ⟨none, true, true, "default", false, true, true, "top-right"⟩
        ⟨true, true, false, false, 0, 1⟩).files.step1_temp = false) :=
  ⟨⟨rfl, by decide⟩,
   claim_c6_pass2_failure_preserves_pass1_output
     ⟨none, true, true, "default", false, true, true, "top-right"⟩
     ⟨true, true, false, false, 0, 1⟩ rfl rfl rfl rfl rfl (by decide)⟩

/-- C7: on every exit path of a single clip export — success, a failed
pass returning None, or the caught reframe exception (the only stage
that raises; see C3) — both the face-tracked silent intermediate and the
pass-1 temporary are gone when the call completes, and a returned path
is always the final output, never the silent intermediate: its content
comes either from the single pass (which maps audio from the trimmed
original source) or from pass 2 (which stream-copies the audio of pass
1's output, itself mapped from the trimmed original source). -/
theorem claim_c7_temps_deleted_and_intermediate_never_returned
    (cfg : ExportCfg) (env : ClipEnv) :
    (export_single_clip cfg env).files.reframed_temp = false ∧
    (export_single_clip cfg env).files.step1_temp = false ∧
    ∀ p, (export_single_clip cfg env).result = some p →
      p = FKind.final ∧ p ≠ FKind.reframed ∧
      (∃ i, (pass1_cmd cfg env).map_audio = some i ∧
        (pass1_cmd cfg env).inputs.get? i = some ⟨true, FKind.source⟩) ∧
      ((export_single_clip cfg env).invocations = [pass1_cmd cfg env] ∧
         (export_single_clip cfg env).files.final = some FinalTag.fromPass1 ∨
       (export_single_clip cfg env).invocations = [pass1_cmd cfg env, pass2_cmd cfg] ∧
         (pass2_cmd cfg).audio_copy = true ∧
         (pass2_cmd cfg).inputs = [⟨false, FKind.step1⟩] ∧
         (pass1_cmd cfg env).out = FKind.step1 ∧
         (export_single_clip cfg env).files.final = some FinalTag.fromPass2) := by
  unfold export_single_clip
  split_ifs with h1 h2 h3
  · exact ⟨rfl, rfl, fun p hp => by simp at hp⟩
  · exact ⟨rfl, rfl, fun p hp => by simp at hp⟩
  · refine ⟨rfl, rfl, ?_⟩
    intro p hp
    have hpf : p = FKind.final := (Option.some.inj hp).symm
    subst hpf
    refine ⟨rfl, by simp, pass1_cmd_audio cfg env, Or.inr ⟨rfl, rfl, rfl, ?_, rfl⟩⟩
    simp [pass1_cmd, h2]
  · refine ⟨rfl, rfl, ?_⟩
    intro p hp
    have hpf : p = FKind.final := (Option.some.inj hp).symm
    subst hpf
    refine ⟨rfl, by simp, pass1_cmd_audio cfg env, Or.inl ⟨rfl, rfl⟩⟩

/-- Witness for C7: the plain single-pass success configuration,
instantiating the returned-path clause at the final output. -/
theorem claim_c7_temps_deleted_and_intermediate_never_returned_witness :
    (export_single_clip ⟨none, false, false, "default", false, false, false, "top-right"⟩
       ⟨false, false, false, false, 0, 0⟩).result = some FKind.final ∧
    (FKind.final = FKind.final ∧ FKind.final ≠ FKind.reframed ∧
      (∃ i, (pass1_cmd ⟨none, false, false, "default", false, false, false, "top-right"⟩
          ⟨false, false, false, false, 0, 0⟩).map_audio = some i ∧
        (pass1_cmd ⟨none, false, false, "default", false, false, false, "top-right"⟩
          ⟨false, false, false, false, 0, 0⟩).inputs.get? i
          = some ⟨true, FKind.source⟩) ∧
      ((export_single_clip ⟨none, false, false, "default", false, false, false,
          "top-right"⟩ ⟨false, false, false, false, 0, 0⟩).invocations
         = [pass1_cmd ⟨none, false, false, "default", false, false, false, "top-right"⟩
              ⟨false, false, false, false, 0, 0⟩] ∧
         (export_single_clip ⟨none, false, false, "default", false, false, false,
           "top-right"⟩ ⟨false, false, false, false, 0, 0⟩).files.final
           = some FinalTag.fromPass1 ∨
       (export_single_clip ⟨none, false, false, "default", false, false, false,
          "top-right"⟩ ⟨false, false, false, false, 0, 0⟩).invocations
         = [pass1_cmd ⟨none, false, false, "default", false, false, false, "top-right"⟩
              ⟨false, false, false, false, 0, 0⟩,
            pass2_cmd ⟨none, false, false, "default", false, false, false, "top-right"⟩] ∧
         (pass2_cmd ⟨none, false, false, "default", false, false, false,
           "top-right"⟩).audio_copy = true ∧
         (pass2_cmd ⟨none, false, false, "default", false, false, false,
           "top-right"⟩).inputs = [⟨false, FKind.step1⟩] ∧
         (pass1_cmd ⟨none, false, false, "default", false, false, false, "top-right"⟩
           ⟨false, false, false, false, 0, 0⟩).out = FKind.step1 ∧
         (export_single_clip ⟨none, false, false, "default", false, false, false,
           "top-right"⟩ ⟨false, false, false, false, 0, 0⟩).files.final
           = some FinalTag.fromPass2)) :=
  ⟨rfl,
   (claim_c7_temps_deleted_and_intermediate_never_returned
     ⟨none, false, false, "default", false, false, false, "top-right"⟩
     ⟨false, false, false, false, 0, 0⟩).2.2 FKind.final rfl⟩

end Cliper
